import Mathlib

/-!
# Verification of `pygeoapi_prefect/schemas.py`

This file embeds the pydantic-v1 models of `src/pygeoapi_prefect/schemas.py`
as executable Lean definitions and proves properties about them.

The source file declares pydantic v1 models (`pydantic.BaseModel` with
`Config.smart_union`, `__root__` models, `pydantic.conlist`, camelCase
aliases).  The behaviour of those declarations is pydantic v1's parsing
semantics, which we embed explicitly:

* Python/JSON values are modelled by `PyValue` (a mutual inductive with its
  list and dict spines, so that size/serialisation functions are structural
  and kernel-reducible).  Python `float` is modelled as `ℚ` (no claim in
  scope depends on IEEE rounding); `int` as `ℤ`.  A Python `dict` built by
  `json.loads` keeps the *last* occurrence of a duplicated key, which is why
  `PyDict.lookup` is last-wins.
* pydantic v1's lax coercing validators (`bool_validator`, `int_validator`,
  `float_validator`, `str_validator`) are modelled field-for-field:
  `int` accepts booleans, floats (truncating toward zero) and integer
  strings; `str` accepts numbers and booleans (Python `str()`); `bool`
  accepts the literal truthy/falsy sets `{1, "1", "on", "t", "true", "y",
  "yes"}` / `{0, "0", "off", "f", "false", "n", "no"}`.
  (Modelling limits, none load-bearing for any theorem: Python's
  `int()`/`float()` accept underscores/exponents in strings and `str()` of a
  float renders a decimal; here integer strings are parsed with a plain
  signed-digits parser, float strings with a plain decimal parser, and a
  float coerced to a string is rendered as a rational.)
* Unions are resolved left-to-right, first success; `smart_union` (set only
  on `ExecutionInputValueNoObject`) first returns a value whose Python class
  is exactly a union member, before attempting coercion left-to-right.
* Model fields are populated only by their alias when an alias is declared
  (pydantic v1 default, no `allow_population_by_field_name` in the source);
  unknown keys are ignored (`Extra.ignore` default); a field annotated
  `Optional[X]`, or given default `None`, is optional with default `None`.
-/

namespace PygeoapiPrefect

/-! ## Python/JSON values -/

mutual
/-- A Python value as produced by `json.loads` (plus `None`): the raw input
fed to the pydantic models of `schemas.py`.  Floats are modelled as `ℚ`. -/
inductive PyValue : Type where
  | none : PyValue
  | bool (b : Bool) : PyValue
  | int (n : ℤ) : PyValue
  | float (q : ℚ) : PyValue
  | str (s : String) : PyValue
  | list (xs : PyList) : PyValue
  | dict (kvs : PyDict) : PyValue

/-- Spine of a Python list of `PyValue`s. -/
inductive PyList : Type where
  | nil : PyList
  | cons (hd : PyValue) (tl : PyList) : PyList

/-- Spine of a Python dict with string keys (insertion order preserved). -/
inductive PyDict : Type where
  | nil : PyDict
  | cons (key : String) (val : PyValue) (tl : PyDict) : PyDict
end

mutual
/-- Structural size of a `PyValue` (used to initialise parser fuel). -/
def PyValue.size : PyValue → Nat
  | .none | .bool _ | .int _ | .float _ | .str _ => 1
  | .list xs => xs.size + 1
  | .dict kvs => kvs.size + 1

/-- Structural size of a `PyList`. -/
def PyList.size : PyList → Nat
  | .nil => 1
  | .cons hd tl => hd.size + tl.size + 1

/-- Structural size of a `PyDict`. -/
def PyDict.size : PyDict → Nat
  | .nil => 1
  | .cons _ v tl => v.size + tl.size + 1
end

/-- The values of a `PyList`, as a Lean list. -/
def PyList.toList : PyList → List PyValue
  | .nil => []
  | .cons hd tl => hd :: tl.toList

/-- Number of elements of a `PyList`. -/
def PyList.length : PyList → Nat
  | .nil => 0
  | .cons _ tl => tl.length + 1

/-- The key/value pairs of a `PyDict`, as a Lean list. -/
def PyDict.toList : PyDict → List (String × PyValue)
  | .nil => []
  | .cons k v tl => (k, v) :: tl.toList

/-- The keys of a `PyDict`, in insertion order. -/
def PyDict.keys : PyDict → List String
  | .nil => []
  | .cons k _ tl => k :: tl.keys

/-- Look a key up in a `PyDict`.  A Python dict built from a key/value
sequence (e.g. by `json.loads`) keeps the value of the *last* occurrence of
a duplicated key, so lookup is last-wins. -/
def PyDict.lookup (d : PyDict) (k : String) : Option PyValue :=
  match d with
  | .nil => Option.none
  | .cons k' v tl =>
    match tl.lookup k with
    | Option.some r => Option.some r
    | Option.none => if k' = k then Option.some v else Option.none

/-! ## pydantic v1 primitive validators -/

/-- A pydantic v1 validation failure.  The source model config never
customises error content, and no theorem below depends on it, so a single
constructor carrying the offending location suffices. -/
inductive VErr : Type where
  | failure (loc : String) : VErr

/-- The monad of pydantic validation: first failure aborts.  (pydantic v1
collects all field errors into one `ValidationError`; only acceptance and
the successful value matter here, which agree with short-circuiting.) -/
abbrev V (α : Type) : Type := Except VErr α

/-- Drop leading ASCII whitespace from a character list. -/
def dropWs : List Char → List Char
  | c :: cs => if c = ' ' ∨ c = '\n' ∨ c = '\t' ∨ c = '\r' then dropWs cs else c :: cs
  | [] => []

/-- Strip whitespace from both ends (Python `str.strip()` as applied by the
numeric constructors; ASCII whitespace suffices for the values in scope). -/
def trimChars (s : String) : List Char :=
  ((dropWs (dropWs s.data).reverse)).reverse

/-- ASCII lowercase of a character (Python `str.lower()` restricted to
ASCII, which covers the boolean literal sets). -/
def charLower (c : Char) : Char :=
  if 'A' ≤ c ∧ c ≤ 'Z' then Char.ofNat (c.toNat + 32) else c

/-- pydantic v1 `bool_validator`: exact bools; ints/floats equal to `0`/`1`;
the lowercased truthy/falsy string sets. -/
def boolValidator : PyValue → Option Bool
  | .bool b => Option.some b
  | .int n => if n = 1 then Option.some true else if n = 0 then Option.some false else Option.none
  | .float q => if q = 1 then Option.some true else if q = 0 then Option.some false else Option.none
  | .str s =>
    let l := String.mk (s.data.map charLower)
    if l ∈ ["1", "on", "t", "true", "y", "yes"] then Option.some true
    else if l ∈ ["0", "off", "f", "false", "n", "no"] then Option.some false
    else Option.none
  | _ => Option.none

/-- Python `int(q)` on a float: truncation toward zero (`Int.tdiv` is
T-division — the magnitude quotient with the sign reapplied — unlike the
`ℤ` division operator, which takes the floor on negatives). -/
def truncQ (q : ℚ) : ℤ := Int.tdiv q.num q.den

/-- Leading decimal digits of a character stream. -/
def takeDigits : List Char → (List Char × List Char)
  | [] => ([], [])
  | c :: cs =>
    if c.isDigit then
      let p := takeDigits cs
      (c :: p.1, p.2)
    else ([], c :: cs)

/-- Digits to a natural number. -/
def digitsToNat (ds : List Char) : Nat :=
  ds.foldl (fun acc c => acc * 10 + (c.toNat - '0'.toNat)) 0

/-- Python `int(s)`: optional surrounding whitespace, optional sign, one or
more digits (digit-group underscores unmodelled). -/
def strToInt? (s : String) : Option ℤ :=
  let cs := trimChars s
  let (sign, cs) := match cs with
    | '-' :: r => ((-1 : ℤ), r)
    | '+' :: r => ((1 : ℤ), r)
    | _ => ((1 : ℤ), cs)
  match takeDigits cs with
  | ([], _) => Option.none
  | (ds, []) => Option.some (sign * digitsToNat ds)
  | (_, _ :: _) => Option.none

/-- pydantic v1 `int_validator` (`int(v)`): ints; bools (`int(True) = 1`);
floats truncated toward zero; strings holding an integer literal. -/
def intValidator : PyValue → Option ℤ
  | .int n => Option.some n
  | .bool b => Option.some (if b then 1 else 0)
  | .float q => Option.some (truncQ q)
  | .str s => strToInt? s
  | _ => Option.none

/-- Decimal string → rational, modelling Python `float(s)` on plain decimal
literals (optional sign, digits, optional fractional part, no exponent). -/
def decimalToRat? (s : String) : Option ℚ :=
  let cs := trimChars s
  let (sign, cs) := match cs with
    | '-' :: r => ((-1 : ℤ), r)
    | '+' :: r => ((1 : ℤ), r)
    | _ => ((1 : ℤ), cs)
  match takeDigits cs with
  | (ds, []) =>
    if ds.isEmpty then Option.none else Option.some (mkRat (sign * digitsToNat ds) 1)
  | (ds, '.' :: rest) =>
    match takeDigits rest with
    | (fs, []) =>
      if ds.isEmpty ∧ fs.isEmpty then Option.none
      else
        Option.some (mkRat (sign * (digitsToNat ds * 10 ^ fs.length + digitsToNat fs))
          (10 ^ fs.length))
    | (_, _ :: _) => Option.none
  | (_, _ :: _) => Option.none

/-- pydantic v1 `float_validator` (`float(v)`): floats; ints; bools; decimal
strings. -/
def floatValidator : PyValue → Option ℚ
  | .float q => Option.some q
  | .int n => Option.some (n : ℚ)
  | .bool b => Option.some (if b then 1 else 0)
  | .str s => decimalToRat? s
  | _ => Option.none

/-- pydantic v1 `str_validator`: strings as-is; ints, floats and bools via
Python `str()` (a float is rendered here as a rational — only acceptance,
never the rendered text, is relied on by any theorem). -/
def strValidator : PyValue → Option String
  | .str s => Option.some s
  | .bool b => Option.some (if b then "True" else "False")
  | .int n => Option.some (toString n)
  | .float q => Option.some (toString q)
  | _ => Option.none

/-- Lift an `Option`-valued validator into `V`, tagging the field. -/
def liftV (loc : String) (o : Option α) : V α :=
  match o with
  | Option.some a => Except.ok a
  | Option.none => Except.error (VErr.failure loc)

/-! ## Generic field handling (pydantic v1 population rules)

A field is populated from the key equal to its alias (or name when no alias
is declared).  An optional field (annotation `Optional[X]` or default
`None`) yields `none` when the key is absent or explicitly `null`.  A field
with a non-`None` default takes that default when absent, and rejects an
explicit `null`. -/

/-- Optional field: absent or `null` ↦ `none`, otherwise validated. -/
def parseOptField (val : PyValue → Option α) (alias_ : String) (kvs : PyDict) :
    V (Option α) :=
  match kvs.lookup alias_ with
  | Option.none => Except.ok Option.none
  | Option.some .none => Except.ok Option.none
  | Option.some v => (liftV alias_ (val v)).map Option.some

/-- Field with a non-`None` default: absent ↦ default, `null` rejected,
otherwise validated. -/
def parseDefField (val : PyValue → Option α) (default_ : α) (alias_ : String)
    (kvs : PyDict) : V α :=
  match kvs.lookup alias_ with
  | Option.none => Except.ok default_
  | Option.some .none => Except.error (VErr.failure alias_)
  | Option.some v => liftV alias_ (val v)

/-- Required field: absent or `null` rejected, otherwise validated. -/
def parseReqField (val : PyValue → Option α) (alias_ : String) (kvs : PyDict) :
    V α :=
  match kvs.lookup alias_ with
  | Option.none => Except.error (VErr.failure alias_)
  | Option.some .none => Except.error (VErr.failure alias_)
  | Option.some v => liftV alias_ (val v)

/-- `conint(ge=0)`-style composition: the validated integer must be `≥ 0`
(`pydantic.Field(..., ge=0)`). -/
def nonNegInt (v : PyValue) : Option ℤ :=
  match intValidator v with
  | Option.some n => if 0 ≤ n then Option.some n else Option.none
  | Option.none => Option.none

/-- Validate every element of a Python list, left to right. -/
def validateListElems (val : PyValue → Option α) : PyList → Option (List α)
  | .nil => Option.some []
  | .cons hd tl =>
    match val hd with
    | Option.some a =>
      match validateListElems val tl with
      | Option.some as => Option.some (a :: as)
      | Option.none => Option.none
    | Option.none => Option.none

/-- A `list[X]` field value: must be a Python list, elements validated. -/
def listValidator (val : PyValue → Option α) : PyValue → Option (List α)
  | .list xs => validateListElems val xs
  | _ => Option.none

/-- `pydantic.conlist(str, min_items=1, unique_items=True)` (the `required`
field): a list of string-coerced elements, non-empty, without duplicates
after coercion. -/
def conlistStrUnique (v : PyValue) : Option (List String) :=
  match listValidator strValidator v with
  | Option.some ss => if ss.length ≥ 1 ∧ ss.Nodup then Option.some ss else Option.none
  | Option.none => Option.none

/-- `pydantic.conlist(Any, min_items=1, unique_items=False)` (the `enum`
field): a non-empty list of arbitrary values, duplicates permitted. -/
def conlistAny (v : PyValue) : Option (List PyValue) :=
  match v with
  | .list xs =>
    let l := xs.toList
    if l.length ≥ 1 then Option.some l else Option.none
  | _ => Option.none

/-! ## A small JSON text decoder

`ProcessIOSchema.default` and `.example` are `pydantic.Json[dict]` fields:
the raw value must be a *string*, which pydantic feeds to `json.loads`, and
the decoded value must be a dict.  The decoder below models `json.loads` on
plain documents (no string escape sequences, no exponent notation — well
beyond anything any theorem below evaluates). -/

/-- Split a JSON string body at its closing quote (escapes unmodelled). -/
def jsonTakeStr : List Char → Option (String × List Char)
  | [] => Option.none
  | c :: cs =>
    if c = '"' then Option.some ("", cs)
    else if c = '\\' then Option.none
    else (jsonTakeStr cs).map (fun p => (String.mk (c :: p.1.data), p.2))

/-- Parse a JSON number (integer, or decimal without exponent). -/
def jsonTakeNum (cs : List Char) : Option (PyValue × List Char) :=
  let (neg, cs) := match cs with
    | '-' :: rest => (true, rest)
    | _ => (false, cs)
  match takeDigits cs with
  | ([], _) => Option.none
  | (ds, rest) =>
    match rest with
    | '.' :: rest' =>
      match takeDigits rest' with
      | ([], _) => Option.none
      | (fs, rest'') =>
        let sgn : ℤ := if neg then -1 else 1
        let q : ℚ :=
          mkRat (sgn * (digitsToNat ds * 10 ^ fs.length + digitsToNat fs)) (10 ^ fs.length)
        Option.some (.float q, rest'')
    | _ =>
      let n : ℤ := digitsToNat ds
      Option.some (.int (if neg then -n else n), rest)

mutual
/-- Decode one JSON value from a character stream (fuelled). -/
def jsonParseVal : Nat → List Char → Option (PyValue × List Char)
  | 0, _ => Option.none
  | fuel + 1, cs =>
    match dropWs cs with
    | 'n' :: 'u' :: 'l' :: 'l' :: rest => Option.some (.none, rest)
    | 't' :: 'r' :: 'u' :: 'e' :: rest => Option.some (.bool true, rest)
    | 'f' :: 'a' :: 'l' :: 's' :: 'e' :: rest => Option.some (.bool false, rest)
    | '"' :: rest => (jsonTakeStr rest).map (fun p => (.str p.1, p.2))
    | '[' :: rest =>
      (match dropWs rest with
       | ']' :: rest' => Option.some (.list .nil, rest')
       | rest' =>
         match jsonParseVal fuel rest' with
         | Option.some (v, rest'') =>
           (jsonParseArrTail fuel rest'').map (fun p => (.list (.cons v p.1), p.2))
         | Option.none => Option.none)
    | '{' :: rest =>
      (match dropWs rest with
       | '}' :: rest' => Option.some (.dict .nil, rest')
       | rest' =>
         match jsonParseMember fuel rest' with
         | Option.some (k, v, rest'') =>
           (jsonParseObjTail fuel rest'').map (fun p => (.dict (.cons k v p.1), p.2))
         | Option.none => Option.none)
    | cs' => jsonTakeNum cs'

/-- Decode the remainder of a JSON array after one element. -/
def jsonParseArrTail : Nat → List Char → Option (PyList × List Char)
  | 0, _ => Option.none
  | fuel + 1, cs =>
    match dropWs cs with
    | ']' :: rest => Option.some (.nil, rest)
    | ',' :: rest =>
      match jsonParseVal fuel rest with
      | Option.some (v, rest') =>
        (jsonParseArrTail fuel rest').map (fun p => (PyList.cons v p.1, p.2))
      | Option.none => Option.none
    | _ => Option.none

/-- Decode one `"key": value` member of a JSON object. -/
def jsonParseMember : Nat → List Char → Option (String × PyValue × List Char)
  | 0, _ => Option.none
  | fuel + 1, cs =>
    match dropWs cs with
    | '"' :: rest =>
      match jsonTakeStr rest with
      | Option.some (k, rest') =>
        (match dropWs rest' with
         | ':' :: rest'' =>
           (jsonParseVal fuel rest'').map (fun p => (k, p.1, p.2))
         | _ => Option.none)
      | Option.none => Option.none
    | _ => Option.none

/-- Decode the remainder of a JSON object after one member. -/
def jsonParseObjTail : Nat → List Char → Option (PyDict × List Char)
  | 0, _ => Option.none
  | fuel + 1, cs =>
    match dropWs cs with
    | '}' :: rest => Option.some (.nil, rest)
    | ',' :: rest =>
      match jsonParseMember fuel rest with
      | Option.some (k, v, rest') =>
        (jsonParseObjTail fuel rest').map (fun p => (PyDict.cons k v p.1, p.2))
      | Option.none => Option.none
    | _ => Option.none
end

/-- `json.loads`: decode a whole string as one JSON document. -/
def jsonLoads (s : String) : Option PyValue :=
  match jsonParseVal (s.length + 1) s.data with
  | Option.some (v, rest) =>
    match dropWs rest with
    | [] => Option.some v
    | _ => Option.none
  | Option.none => Option.none

/-- `pydantic.Json[dict]`: the raw value must be a string whose JSON
decoding is an object. -/
def jsonDictValidator (v : PyValue) : Option PyDict :=
  match v with
  | .str s =>
    match jsonLoads s with
    | Option.some (.dict kvs) => Option.some kvs
    | _ => Option.none
  | _ => Option.none

/-- Validate every element of a Python list with a fallible (`V`) element
validator, left to right, collecting results. -/
def validateVListElems (f : PyValue → V α) : PyList → V (List α)
  | .nil => Except.ok []
  | .cons hd tl => do
    let a ← f hd
    let as ← validateVListElems f tl
    pure (a :: as)

/-- Python `dict(v)` as used by pydantic v1 model/dict validation: a dict is
taken as-is; a list is converted when every element is a `[key, value]` pair
whose key is a string (later duplicates win, matching `PyDict.lookup`).
(Python also converts other exotic iterables, e.g. 2-character strings, and
allows non-string keys for plain `dict`-typed fields; neither can produce a
value any model or theorem here observes, so they are not modelled.) -/
def asDictLike : PyValue → Option PyDict
  | .dict kvs => Option.some kvs
  | .list xs => pairsToDict xs
  | _ => Option.none
where
  /-- Convert a Python list of `[string, value]` pairs to a dict spine. -/
  pairsToDict : PyList → Option PyDict
    | .nil => Option.some .nil
    | .cons (.list (.cons (.str k) (.cons v .nil))) tl =>
      (pairsToDict tl).map (PyDict.cons k v)
    | _ => Option.none

/-- pydantic v1 `BaseModel.validate` on a raw value: parse the field dict
when the value is dict-like (`dict(v)` conversion included), otherwise fail
with a `DictError`. -/
def validateModel (p : PyDict → V α) (loc : String) (v : PyValue) : V α :=
  match asDictLike v with
  | Option.some kvs => p kvs
  | Option.none => Except.error (VErr.failure loc)

/-! ## `ProcessIOSchema`

The recursive schema model.  Non-recursive fields live in `SchemaScalars`;
the recursive composition fields (`not`, `allOf`, `oneOf`, `anyOf`,
`items`, `properties`, `additionalProperties`) live in `SchemaNode`, a
mutual inductive with its own option/list spines so that serialisation is
structural. -/

/-- The values of `ProcessIOType` (the `type` vocabulary);
`Config.use_enum_values` makes the model store the raw value string. -/
def processIOTypeValues : List String :=
  ["array", "boolean", "integer", "number", "object", "string"]

/-- The values of `ProcessIOFormat` (the `format` vocabulary), in source
declaration order. -/
def processIOFormatValues : List String :=
  ["date-time", "date", "time", "duration", "email", "hostname", "ipv4",
   "ipv6", "uri", "uri-reference", "uuid", "uri-template", "json-pointer",
   "relative-json-pointer", "regex", "binary",
   "http://www.opengis.net/def/format/ogcapi-processes/0/geojson-feature-collection",
   "http://www.opengis.net/def/format/ogcapi-processes/0/geojson-feature",
   "http://www.opengis.net/def/format/ogcapi-processes/0/geojson-geometry",
   "http://www.opengis.net/def/format/ogcapi-processes/0/ogc-bbox",
   "geojson-feature-collection", "geojson-feature", "geojson-geometry",
   "ogc-bbox"]

/-- A python `Enum`-typed field: the raw value must equal one of the
member values (all strings here); `use_enum_values` stores that string. -/
def enumStrValidator (vals : List String) (v : PyValue) : Option String :=
  match v with
  | .str s => if s ∈ vals then Option.some s else Option.none
  | _ => Option.none

/-- The wire keys (aliases) of `ProcessIOSchema`, in field declaration
order — the order pydantic serialises fields in. -/
def processIOSchemaAliases : List String :=
  ["title", "multipleOf", "maximum", "exclusiveMaximum", "minimum",
   "exclusiveMinimum", "maxLength", "minLength", "pattern", "maxItems",
   "minItems", "uniqueItems", "maxProperties", "minProperties", "required",
   "enum", "type", "not", "allOf", "oneOf", "anyOf", "items", "properties",
   "additionalProperties", "description", "format", "default", "nullable",
   "readOnly", "writeOnly", "example", "deprecated", "contentMediaType",
   "contentEncoding", "contentSchema"]

/-- The non-recursive fields of `ProcessIOSchema`, with pydantic v1 typing:
`Optional[X]` (or default `None`) fields are `Option`; `Field(d, ...)`
fields carry their default; `fieldsSet` records which aliases were present
in the raw document (pydantic's `__fields_set__`, by alias), in declaration
order.  `example` is a Lean keyword, hence the field name `example_`. -/
structure SchemaScalars where
  title : Option String
  multiple_of : Option ℚ
  maximum : Option ℚ
  exclusive_maximum : Bool
  minimum : Option ℚ
  exclusive_minimum : Bool
  max_length : Option ℤ
  min_length : ℤ
  pattern : Option String
  max_items : Option ℤ
  min_items : ℤ
  unique_items : Bool
  max_properties : Option ℤ
  min_properties : ℤ
  required : Option (List String)
  enum : Option (List PyValue)
  type_ : Option String
  description : Option String
  format_ : Option String
  default : Option PyDict
  nullable : Bool
  read_only : Bool
  write_only : Bool
  example_ : Option PyDict
  deprecated : Bool
  content_media_type : Option String
  content_encoding : Option String
  content_schema : Option String
  fieldsSet : List String

mutual
/-- A validated `ProcessIOSchema`: scalar fields plus the recursive
composition fields, in source order `not`, `allOf`, `oneOf`, `anyOf`,
`items`, `properties`, `additionalProperties`. -/
inductive SchemaNode : Type where
  | mk (scalars : SchemaScalars) (not_ : OptSchemaNode)
      (allOf : OptSchemaList) (oneOf : OptSchemaList) (anyOf : OptSchemaList)
      (items : OptSchemaList) (properties : OptSchemaNode)
      (additional_properties : BoolOrSchema) : SchemaNode

/-- `Optional["ProcessIOSchema"]`. -/
inductive OptSchemaNode : Type where
  | none : OptSchemaNode
  | some (n : SchemaNode) : OptSchemaNode

/-- `Optional[list["ProcessIOSchema"]]`. -/
inductive OptSchemaList : Type where
  | none : OptSchemaList
  | some (l : SchemaList) : OptSchemaList

/-- Spine of a `list["ProcessIOSchema"]`. -/
inductive SchemaList : Type where
  | nil : SchemaList
  | cons (hd : SchemaNode) (tl : SchemaList) : SchemaList

/-- `Union[bool, "ProcessIOSchema"]` (the `additionalProperties` field). -/
inductive BoolOrSchema : Type where
  | bool (b : Bool) : BoolOrSchema
  | schema (n : SchemaNode) : BoolOrSchema
end

/-- The scalar fields of a `SchemaNode`. -/
def SchemaNode.scalars : SchemaNode → SchemaScalars
  | .mk sc _ _ _ _ _ _ _ => sc

/-- The `not` subschema of a `SchemaNode`. -/
def SchemaNode.not_ : SchemaNode → OptSchemaNode
  | .mk _ n _ _ _ _ _ _ => n

/-- The `allOf` subschemas of a `SchemaNode`. -/
def SchemaNode.allOf : SchemaNode → OptSchemaList
  | .mk _ _ a _ _ _ _ _ => a

/-- The `oneOf` subschemas of a `SchemaNode`. -/
def SchemaNode.oneOf : SchemaNode → OptSchemaList
  | .mk _ _ _ o _ _ _ _ => o

/-- The `anyOf` subschemas of a `SchemaNode`. -/
def SchemaNode.anyOf : SchemaNode → OptSchemaList
  | .mk _ _ _ _ y _ _ _ => y

/-- The `items` subschemas of a `SchemaNode`. -/
def SchemaNode.items : SchemaNode → OptSchemaList
  | .mk _ _ _ _ _ i _ _ => i

/-- The `properties` subschema of a `SchemaNode`. -/
def SchemaNode.properties : SchemaNode → OptSchemaNode
  | .mk _ _ _ _ _ _ p _ => p

/-- The `additionalProperties` value of a `SchemaNode`. -/
def SchemaNode.additional_properties : SchemaNode → BoolOrSchema
  | .mk _ _ _ _ _ _ _ ap => ap

/-- The aliases present in a raw document, in declaration order —
pydantic's `__fields_set__` restricted to `ProcessIOSchema`'s fields. -/
def schemaFieldsSet (kvs : PyDict) : List String :=
  processIOSchemaAliases.filter (fun a => (kvs.lookup a).isSome)

/-- Parse the non-recursive fields of `ProcessIOSchema` from a field dict,
in source declaration order. -/
def parseSchemaScalars (kvs : PyDict) : V SchemaScalars := do
  let title ← parseOptField strValidator "title" kvs
  let multiple_of ← parseOptField floatValidator "multipleOf" kvs
  let maximum ← parseOptField floatValidator "maximum" kvs
  let exclusive_maximum ← parseDefField boolValidator false "exclusiveMaximum" kvs
  let minimum ← parseOptField floatValidator "minimum" kvs
  let exclusive_minimum ← parseDefField boolValidator false "exclusiveMinimum" kvs
  let max_length ← parseOptField nonNegInt "maxLength" kvs
  let min_length ← parseDefField nonNegInt 0 "minLength" kvs
  let pattern ← parseOptField strValidator "pattern" kvs
  let max_items ← parseOptField nonNegInt "maxItems" kvs
  let min_items ← parseDefField nonNegInt 0 "minItems" kvs
  let unique_items ← parseDefField boolValidator false "uniqueItems" kvs
  let max_properties ← parseOptField nonNegInt "maxProperties" kvs
  let min_properties ← parseDefField nonNegInt 0 "minProperties" kvs
  let required ← parseOptField conlistStrUnique "required" kvs
  let enum ← parseOptField conlistAny "enum" kvs
  let type_ ← parseOptField (enumStrValidator processIOTypeValues) "type" kvs
  let description ← parseOptField strValidator "description" kvs
  let format_ ← parseOptField (enumStrValidator processIOFormatValues) "format" kvs
  let default ← parseOptField jsonDictValidator "default" kvs
  let nullable ← parseDefField boolValidator false "nullable" kvs
  let read_only ← parseDefField boolValidator false "readOnly" kvs
  let write_only ← parseDefField boolValidator false "writeOnly" kvs
  let example_ ← parseOptField jsonDictValidator "example" kvs
  let deprecated ← parseDefField boolValidator false "deprecated" kvs
  let content_media_type ← parseOptField strValidator "contentMediaType" kvs
  let content_encoding ← parseOptField strValidator "contentEncoding" kvs
  let content_schema ← parseOptField strValidator "contentSchema" kvs
  pure
    { title := title, multiple_of := multiple_of, maximum := maximum,
      exclusive_maximum := exclusive_maximum, minimum := minimum,
      exclusive_minimum := exclusive_minimum, max_length := max_length,
      min_length := min_length, pattern := pattern, max_items := max_items,
      min_items := min_items, unique_items := unique_items,
      max_properties := max_properties, min_properties := min_properties,
      required := required, enum := enum, type_ := type_,
      description := description, format_ := format_, default := default,
      nullable := nullable, read_only := read_only, write_only := write_only,
      example_ := example_, deprecated := deprecated,
      content_media_type := content_media_type,
      content_encoding := content_encoding, content_schema := content_schema,
      fieldsSet := schemaFieldsSet kvs }

/-- Optional model-typed field: absent or `null` ↦ none, otherwise the
sub-parser must succeed. -/
def parseOptSchemaWith (p : PyValue → V SchemaNode) (alias_ : String)
    (kvs : PyDict) : V OptSchemaNode :=
  match kvs.lookup alias_ with
  | Option.none => Except.ok OptSchemaNode.none
  | Option.some .none => Except.ok OptSchemaNode.none
  | Option.some w => (p w).map OptSchemaNode.some

/-- Validate every element of a Python list as a subschema. -/
def parseSchemaElemsWith (p : PyValue → V SchemaNode) : PyList → V SchemaList
  | .nil => Except.ok SchemaList.nil
  | .cons hd tl => do
    let n ← p hd
    let rest ← parseSchemaElemsWith p tl
    pure (SchemaList.cons n rest)

/-- Optional `list["ProcessIOSchema"]` field. -/
def parseOptSchemaListWith (p : PyValue → V SchemaNode) (alias_ : String)
    (kvs : PyDict) : V OptSchemaList :=
  match kvs.lookup alias_ with
  | Option.none => Except.ok OptSchemaList.none
  | Option.some .none => Except.ok OptSchemaList.none
  | Option.some (.list xs) => (parseSchemaElemsWith p xs).map OptSchemaList.some
  | Option.some _ => Except.error (VErr.failure alias_)

/-- The `additionalProperties` field: `Union[bool, "ProcessIOSchema"]`
tried left to right, defaulting to `True` when absent; an explicit `null`
is rejected (the field is not `Optional`). -/
def parseAdditionalPropsWith (p : PyValue → V SchemaNode) (kvs : PyDict) :
    V BoolOrSchema :=
  match kvs.lookup "additionalProperties" with
  | Option.none => Except.ok (BoolOrSchema.bool true)
  | Option.some .none => Except.error (VErr.failure "additionalProperties")
  | Option.some w =>
    match boolValidator w with
    | Option.some b => Except.ok (BoolOrSchema.bool b)
    | Option.none => (p w).map BoolOrSchema.schema

/-- Parse a `ProcessIOSchema` document (fuelled; fuel is initialised from
the document's structural size, which strictly bounds the recursion depth).
The value must be dict-like; scalars are parsed per field, then the
recursive composition fields; `additionalProperties` tries `bool` before a
nested schema (`Union[bool, ProcessIOSchema]`, left to right) and defaults
to `True`. -/
def parseProcessIOSchemaFuel : Nat → PyValue → V SchemaNode
  | 0, _ => Except.error (VErr.failure "fuel")
  | fuel + 1, v =>
    match asDictLike v with
    | Option.none => Except.error (VErr.failure "schema")
    | Option.some kvs => do
      let scalars ← parseSchemaScalars kvs
      let not_ ← parseOptSchemaWith (parseProcessIOSchemaFuel fuel) "not" kvs
      let allOf ← parseOptSchemaListWith (parseProcessIOSchemaFuel fuel) "allOf" kvs
      let oneOf ← parseOptSchemaListWith (parseProcessIOSchemaFuel fuel) "oneOf" kvs
      let anyOf ← parseOptSchemaListWith (parseProcessIOSchemaFuel fuel) "anyOf" kvs
      let items ← parseOptSchemaListWith (parseProcessIOSchemaFuel fuel) "items" kvs
      let properties ← parseOptSchemaWith (parseProcessIOSchemaFuel fuel) "properties" kvs
      let addProps ← parseAdditionalPropsWith (parseProcessIOSchemaFuel fuel) kvs
      pure (SchemaNode.mk scalars not_ allOf oneOf anyOf items properties addProps)

/-- Parse a `ProcessIOSchema` document. -/
def parseProcessIOSchema (v : PyValue) : V SchemaNode :=
  parseProcessIOSchemaFuel v.size v

/-! ### Serialisation of a `SchemaNode` -/

/-- A Lean association list as a Python dict. -/
def pyDictOfList : List (String × PyValue) → PyDict
  | [] => .nil
  | (k, v) :: rest => .cons k v (pyDictOfList rest)

/-- A Lean list as a Python list. -/
def pyListOfList : List PyValue → PyList
  | [] => .nil
  | v :: vs => .cons v (pyListOfList vs)

/-- Render an optional string field value (`None` serialises as `null`). -/
def renderOptStr : Option String → PyValue
  | Option.some s => .str s
  | Option.none => .none

/-- Render an optional float field value. -/
def renderOptFloat : Option ℚ → PyValue
  | Option.some q => .float q
  | Option.none => .none

/-- Render an optional integer field value. -/
def renderOptInt : Option ℤ → PyValue
  | Option.some n => .int n
  | Option.none => .none

/-- Render an optional string-list field value. -/
def renderOptStrList : Option (List String) → PyValue
  | Option.some l => .list (pyListOfList (l.map .str))
  | Option.none => .none

/-- Render an optional list of arbitrary values. -/
def renderOptAnyList : Option (List PyValue) → PyValue
  | Option.some l => .list (pyListOfList l)
  | Option.none => .none

/-- Render an optional dict field value. -/
def renderOptDict : Option PyDict → PyValue
  | Option.some kvs => .dict kvs
  | Option.none => .none

/-- Emit the fields listed in `as` whose alias is in the set `fs`, in
order, rendering each with `g`. -/
def emitFields (g : String → PyValue) (fs : List String) (as : List String) :
    List (String × PyValue) :=
  as.filterMap (fun a => if a ∈ fs then Option.some (a, g a) else Option.none)

/-- The rendered value of the `ProcessIOSchema` field whose alias is `a`:
the scalar fields come from `sc`, the recursive composition fields are
passed already serialised. -/
def schemaG (sc : SchemaScalars)
    (vnot vallOf voneOf vanyOf vitems vprops vap : PyValue)
    (a : String) : PyValue :=
  if a = "title" then renderOptStr sc.title
  else if a = "multipleOf" then renderOptFloat sc.multiple_of
  else if a = "maximum" then renderOptFloat sc.maximum
  else if a = "exclusiveMaximum" then .bool sc.exclusive_maximum
  else if a = "minimum" then renderOptFloat sc.minimum
  else if a = "exclusiveMinimum" then .bool sc.exclusive_minimum
  else if a = "maxLength" then renderOptInt sc.max_length
  else if a = "minLength" then .int sc.min_length
  else if a = "pattern" then renderOptStr sc.pattern
  else if a = "maxItems" then renderOptInt sc.max_items
  else if a = "minItems" then .int sc.min_items
  else if a = "uniqueItems" then .bool sc.unique_items
  else if a = "maxProperties" then renderOptInt sc.max_properties
  else if a = "minProperties" then .int sc.min_properties
  else if a = "required" then renderOptStrList sc.required
  else if a = "enum" then renderOptAnyList sc.enum
  else if a = "type" then renderOptStr sc.type_
  else if a = "not" then vnot
  else if a = "allOf" then vallOf
  else if a = "oneOf" then voneOf
  else if a = "anyOf" then vanyOf
  else if a = "items" then vitems
  else if a = "properties" then vprops
  else if a = "additionalProperties" then vap
  else if a = "description" then renderOptStr sc.description
  else if a = "format" then renderOptStr sc.format_
  else if a = "default" then renderOptDict sc.default
  else if a = "nullable" then .bool sc.nullable
  else if a = "readOnly" then .bool sc.read_only
  else if a = "writeOnly" then .bool sc.write_only
  else if a = "example" then renderOptDict sc.example_
  else if a = "deprecated" then .bool sc.deprecated
  else if a = "contentMediaType" then renderOptStr sc.content_media_type
  else if a = "contentEncoding" then renderOptStr sc.content_encoding
  else renderOptStr sc.content_schema

mutual
/-- Modelled from the spec: the serialisation direction of the round-trip
("serializing a SchemaNode must reproduce the original camelCase key set
(minus defaulted/absent fields)") — no caller in `src/` fixes the dump
call, so this is pydantic v1's `.dict(by_alias=True, exclude_unset=True)`:
each field that was explicitly provided is emitted under its alias, in
declaration order, with nested schemas serialised recursively. -/
def serializeSchemaNode : SchemaNode → List (String × PyValue)
  | .mk sc not_ allOf oneOf anyOf items properties addProps =>
    emitFields
      (schemaG sc (serializeOptSchema not_) (serializeOptSchemaList allOf)
        (serializeOptSchemaList oneOf) (serializeOptSchemaList anyOf)
        (serializeOptSchemaList items) (serializeOptSchema properties)
        (serializeBoolOrSchema addProps))
      sc.fieldsSet processIOSchemaAliases

/-- Serialise an optional subschema (`null` when explicitly set to none). -/
def serializeOptSchema : OptSchemaNode → PyValue
  | .none => .none
  | .some n => .dict (pyDictOfList (serializeSchemaNode n))

/-- Serialise an optional subschema list. -/
def serializeOptSchemaList : OptSchemaList → PyValue
  | .none => .none
  | .some l => .list (serializeSchemaListVals l)

/-- Serialise the elements of a subschema list. -/
def serializeSchemaListVals : SchemaList → PyList
  | .nil => .nil
  | .cons hd tl =>
    .cons (.dict (pyDictOfList (serializeSchemaNode hd))) (serializeSchemaListVals tl)

/-- Serialise an `additionalProperties` value. -/
def serializeBoolOrSchema : BoolOrSchema → PyValue
  | .bool b => .bool b
  | .schema n => .dict (pyDictOfList (serializeSchemaNode n))
end

/-! ## Process description models (`ProcessInput`, `ProcessOutput`,
`Process` and their leaves) -/

/-- `Link`: required `href`; optional `type_` (alias `type`), `rel`,
`title`, `href_lang` (alias `hreflang`). -/
structure Link where
  href : String
  type_ : Option String
  rel : Option String
  title : Option String
  href_lang : Option String

/-- Parse a `Link` from a field dict. -/
def parseLink (kvs : PyDict) : V Link := do
  let href ← parseReqField strValidator "href" kvs
  let type_ ← parseOptField strValidator "type" kvs
  let rel ← parseOptField strValidator "rel" kvs
  let title ← parseOptField strValidator "title" kvs
  let hrefLang ← parseOptField strValidator "hreflang" kvs
  pure ⟨href, type_, rel, title, hrefLang⟩

/-- `ProcessMetadata`: three optional strings. -/
structure ProcessMetadata where
  title : Option String
  role : Option String
  href : Option String

/-- Parse a `ProcessMetadata` from a field dict. -/
def parseProcessMetadata (kvs : PyDict) : V ProcessMetadata := do
  let title ← parseOptField strValidator "title" kvs
  let role ← parseOptField strValidator "role" kvs
  let href ← parseOptField strValidator "href" kvs
  pure ⟨title, role, href⟩

/-- One element of `AdditionalProcessIOParameters.value`:
`str | float | int | list[dict] | dict`, resolved left to right (so every
scalar is captured by the string coercion first). -/
inductive AdditionalValueElem : Type where
  | str (s : String)
  | float (q : ℚ)
  | int (n : ℤ)
  | dictList (ds : List PyDict)
  | obj (kvs : PyDict)

/-- `list[dict]`: a list whose elements are all dict-like. -/
def dictListValidator (v : PyValue) : Option (List PyDict) :=
  listValidator asDictLike v

/-- Resolve one element of `AdditionalProcessIOParameters.value` against
`str | float | int | list[dict] | dict`, left to right. -/
def additionalValueElemValidator (v : PyValue) : Option AdditionalValueElem :=
  match strValidator v with
  | Option.some s => Option.some (.str s)
  | Option.none =>
    match floatValidator v with
    | Option.some q => Option.some (.float q)
    | Option.none =>
      match intValidator v with
      | Option.some n => Option.some (.int n)
      | Option.none =>
        match dictListValidator v with
        | Option.some ds => Option.some (.dictList ds)
        | Option.none => (asDictLike v).map .obj

/-- `AdditionalProcessIOParameters(ProcessMetadata)`: the inherited
optional strings, a required `name` and a required `value` list. -/
structure AdditionalProcessIOParameters where
  title : Option String
  role : Option String
  href : Option String
  name : String
  value : List AdditionalValueElem

/-- Parse an `AdditionalProcessIOParameters` from a field dict. -/
def parseAdditionalProcessIOParameters (kvs : PyDict) :
    V AdditionalProcessIOParameters := do
  let title ← parseOptField strValidator "title" kvs
  let role ← parseOptField strValidator "role" kvs
  let href ← parseOptField strValidator "href" kvs
  let name ← parseReqField strValidator "name" kvs
  let value ← parseReqField (listValidator additionalValueElemValidator) "value" kvs
  pure ⟨title, role, href, name, value⟩

/-- `max_occurs`: `int | typing.Literal["unbounded"]`, left to right — the
lax int validator first, then the literal string. -/
inductive MaxOccurs : Type where
  | int (n : ℤ)
  | unbounded
  deriving DecidableEq

/-- Validator of `max_occurs` values. -/
def maxOccursValidator (v : PyValue) : Option MaxOccurs :=
  match intValidator v with
  | Option.some n => Option.some (.int n)
  | Option.none =>
    match v with
    | .str s => if s = "unbounded" then Option.some .unbounded else Option.none
    | _ => Option.none

/-- Generic optional field with a `V`-valued validator. -/
def parseOptFieldV (val : PyValue → V α) (alias_ : String) (kvs : PyDict) :
    V (Option α) :=
  match kvs.lookup alias_ with
  | Option.none => Except.ok Option.none
  | Option.some .none => Except.ok Option.none
  | Option.some v => (val v).map Option.some

/-- Generic required field with a `V`-valued validator (explicit `null`
rejected, as for any non-`Optional` pydantic field). -/
def parseReqFieldV (val : PyValue → V α) (alias_ : String) (kvs : PyDict) :
    V α :=
  match kvs.lookup alias_ with
  | Option.none => Except.error (VErr.failure alias_)
  | Option.some .none => Except.error (VErr.failure alias_)
  | Option.some v => val v

/-- `list[X]` with a `V`-valued element validator. -/
def listValidatorV (f : PyValue → V α) (v : PyValue) : V (List α) :=
  match v with
  | .list xs => validateVListElems f xs
  | _ => Except.error (VErr.failure "list")

/-- `ProcessOutput`: optional `title`/`description`, required `schema_`
(alias `schema`). -/
structure ProcessOutput where
  title : Option String
  description : Option String
  schema_ : SchemaNode

/-- Parse a `ProcessOutput` from a field dict (fuelled for the nested
schema). -/
def parseProcessOutputFuel (fuel : Nat) (kvs : PyDict) : V ProcessOutput := do
  let title ← parseOptField strValidator "title" kvs
  let description ← parseOptField strValidator "description" kvs
  let schema_ ← parseReqFieldV (parseProcessIOSchemaFuel fuel) "schema" kvs
  pure ⟨title, description, schema_⟩

/-- `ProcessInput(ProcessOutput)`: the inherited fields, then `keywords`,
`metadata`, `min_occurs` (alias `minOccurs`, default `1`, no bound
constraints in the source), `max_occurs` (alias `maxOccurs`, default `1`),
`additional_parameters` (no alias). -/
structure ProcessInput where
  title : Option String
  description : Option String
  schema_ : SchemaNode
  keywords : Option (List String)
  metadata : Option (List ProcessMetadata)
  min_occurs : ℤ
  max_occurs : MaxOccurs
  additional_parameters : Option AdditionalProcessIOParameters

/-- Parse a `ProcessInput` from a field dict. -/
def parseProcessInputFuel (fuel : Nat) (kvs : PyDict) : V ProcessInput := do
  let title ← parseOptField strValidator "title" kvs
  let description ← parseOptField strValidator "description" kvs
  let schema_ ← parseReqFieldV (parseProcessIOSchemaFuel fuel) "schema" kvs
  let keywords ← parseOptField (listValidator strValidator) "keywords" kvs
  let metadata ←
    parseOptFieldV (listValidatorV (validateModel parseProcessMetadata "metadata"))
      "metadata" kvs
  let min_occurs ← parseDefField intValidator 1 "minOccurs" kvs
  let max_occurs ← parseDefField maxOccursValidator (.int 1) "maxOccurs" kvs
  let additional_parameters ←
    parseOptFieldV (validateModel parseAdditionalProcessIOParameters "additional_parameters")
      "additional_parameters" kvs
  pure ⟨title, description, schema_, keywords, metadata, min_occurs, max_occurs,
    additional_parameters⟩

/-- Parse a `ProcessInput` from a raw value. -/
def parseProcessInput (v : PyValue) : V ProcessInput :=
  validateModel (parseProcessInputFuel v.size) "ProcessInput" v

/-- `ProcessJobControlOption`: the closed job-control vocabulary. -/
inductive ProcessJobControlOption : Type where
  | sync_execute
  | async_execute
  | dismiss
  deriving DecidableEq

/-- Enum validation of a job-control token by member value. -/
def processJobControlOptionValidator (v : PyValue) :
    Option ProcessJobControlOption :=
  match v with
  | .str "sync-execute" => Option.some .sync_execute
  | .str "async-execute" => Option.some .async_execute
  | .str "dismiss" => Option.some .dismiss
  | _ => Option.none

/-- `ProcessOutputTransmissionMode`: the closed transmission vocabulary. -/
inductive ProcessOutputTransmissionMode : Type where
  | value
  | reference
  deriving DecidableEq

/-- Enum validation of a transmission-mode token by member value. -/
def processOutputTransmissionModeValidator (v : PyValue) :
    Option ProcessOutputTransmissionMode :=
  match v with
  | .str "value" => Option.some .value
  | .str "reference" => Option.some .reference
  | _ => Option.none

/-- `dict[str, str]`: a dict-like value whose every value is
string-coerced (keys are strings by construction). -/
def strStrDictValidator (v : PyValue) : Option (List (String × String)) :=
  match asDictLike v with
  | Option.some kvs => mapVals kvs
  | Option.none => Option.none
where
  /-- Coerce every value of the dict spine. -/
  mapVals : PyDict → Option (List (String × String))
    | .nil => Option.some []
    | .cons k v tl =>
      match strValidator v with
      | Option.some s => (mapVals tl).map (fun r => (k, s) :: r)
      | Option.none => Option.none

/-- `dict[str, M]` for a model `M`: validate every value of a dict-like
value with a `V`-valued parser. -/
def dictOfModelsValidator (f : PyValue → V α) (v : PyValue) :
    V (List (String × α)) :=
  match asDictLike v with
  | Option.some kvs => mapVals kvs
  | Option.none => Except.error (VErr.failure "dict")
where
  /-- Validate every value of the dict spine. -/
  mapVals : PyDict → V (List (String × α))
    | .nil => Except.ok []
    | .cons k v tl => do
      let a ← f v
      let rest ← mapVals tl
      pure ((k, a) :: rest)

/-- `Process`: the full process description model.  `job_control_options`
(alias `jobControlOptions`) is a required plain `list` of enum members — no
non-emptiness constraint in the source; `output_transmission` defaults to
`[VALUE]`. -/
structure Process where
  title : List (String × String)
  description : List (String × String)
  keywords : List String
  version : String
  id : String
  job_control_options : List ProcessJobControlOption
  output_transmission : List ProcessOutputTransmissionMode
  links : List Link
  inputs : List (String × ProcessInput)
  outputs : List (String × ProcessOutput)
  example_ : Option PyDict

/-- Parse a `Process` from a field dict. -/
def parseProcessFuel (fuel : Nat) (kvs : PyDict) : V Process := do
  let title ← parseReqField strStrDictValidator "title" kvs
  let description ← parseReqField strStrDictValidator "description" kvs
  let keywords ← parseReqField (listValidator strValidator) "keywords" kvs
  let version ← parseReqField strValidator "version" kvs
  let id ← parseReqField strValidator "id" kvs
  let job_control_options ←
    parseReqField (listValidator processJobControlOptionValidator)
      "jobControlOptions" kvs
  let output_transmission ←
    parseDefField (listValidator processOutputTransmissionModeValidator)
      [.value] "outputTransmission" kvs
  let links ← parseReqFieldV (listValidatorV (validateModel parseLink "links")) "links" kvs
  let inputs ←
    parseReqFieldV
      (dictOfModelsValidator (validateModel (parseProcessInputFuel fuel) "inputs"))
      "inputs" kvs
  let outputs ←
    parseReqFieldV
      (dictOfModelsValidator (validateModel (parseProcessOutputFuel fuel) "outputs"))
      "outputs" kvs
  let example_ ← parseOptField asDictLike "example" kvs
  pure ⟨title, description, keywords, version, id, job_control_options,
    output_transmission, links, inputs, outputs, example_⟩

/-- Parse a `Process` from a raw value. -/
def parseProcess (v : PyValue) : V Process :=
  validateModel (parseProcessFuel v.size) "Process" v

/-! ## Execution input values (`execute.yml` unions)

Source models: `ExecutionInputBBox`, `ExecutionInputValueNoObjectArray`,
`ExecutionInputValueNoObject` (with `Config.smart_union`),
`ExecutionFormat`, `ExecutionQualifiedInputValue`, `Link`, and the
`Execution.inputs` value union
`Union[ExecutionInputValueNoObject, ExecutionQualifiedInputValue, Link,
List[Union[ExecutionInputValueNoObject, ExecutionQualifiedInputValue,
Link]]]`. -/

/-- `ExecutionInputBBox`: `bbox: list[float] = Field(..., min_items=4,
max_items=4)`, `crs: Optional[str] = "…CRS84"`. -/
structure ExecutionInputBBox where
  bbox : List ℚ
  crs : Option String
  deriving DecidableEq

/-- The default `crs` of `ExecutionInputBBox`. -/
def crs84 : String := "http://www.opengis.net/def/crs/OGC/1.3/CRS84"

/-- One element of `ExecutionInputValueNoObjectArray.__root__`, i.e. of
`List[Union[ExecutionInputBBox, int, str,
"ExecutionInputValueNoObjectArray"]]` (in that union order). -/
inductive ExecutionArrayElem : Type where
  | bbox (b : ExecutionInputBBox)
  | int (n : ℤ)
  | str (s : String)
  | array (xs : List ExecutionArrayElem)

/-- `ExecutionInputValueNoObject.__root__`:
`Union[ExecutionInputBBox, bool, float, int,
ExecutionInputValueNoObjectArray, str]` under `smart_union`. -/
inductive ExecutionInputValueNoObject : Type where
  | bbox (b : ExecutionInputBBox)
  | bool (b : Bool)
  | float (q : ℚ)
  | int (n : ℤ)
  | array (xs : List ExecutionArrayElem)
  | str (s : String)

/-- `ExecutionFormat`: `media_type` (alias `mediaType`), `encoding`,
`schema_` (alias `schema`, `Optional[Union[str, dict]]`). -/
structure ExecutionFormat where
  media_type : Option String
  encoding : Option String
  schema_ : Option (String ⊕ PyDict)

/-- The `value` of `ExecutionQualifiedInputValue`:
`Union[ExecutionInputValueNoObject, dict]` (left to right, no smart
union). -/
inductive QualifiedValue : Type where
  | noObject (v : ExecutionInputValueNoObject)
  | obj (kvs : PyDict)

/-- `ExecutionQualifiedInputValue`: required `value`; `format_:
Optional[ExecutionFormat] = None`.  Note that, unlike every sibling model,
this field carries **no** `alias="format"` in the source, so it is populated
only by the literal key `"format_"`. -/
structure ExecutionQualifiedInputValue where
  value : QualifiedValue
  format_ : Option ExecutionFormat

/-- A member of the list branch of the `Execution.inputs` value union:
`Union[ExecutionInputValueNoObject, ExecutionQualifiedInputValue, Link]`. -/
inductive ExecutionInputItem : Type where
  | noObject (v : ExecutionInputValueNoObject)
  | qualified (q : ExecutionQualifiedInputValue)
  | link (l : Link)

/-- The resolved form of one value of `Execution.inputs`. -/
inductive ExecutionInputValue : Type where
  | noObject (v : ExecutionInputValueNoObject)
  | qualified (q : ExecutionQualifiedInputValue)
  | link (l : Link)
  | seq (items : List ExecutionInputItem)

/-- `conlist(float, min_items=4, max_items=4)`: exactly four floats. -/
def bboxListValidator (v : PyValue) : Option (List ℚ) :=
  match listValidator floatValidator v with
  | Option.some qs => if qs.length = 4 then Option.some qs else Option.none
  | Option.none => Option.none

/-- Parse an `ExecutionInputBBox` from a field dict: required 4-float
`bbox`; `crs` defaults to CRS84 when absent, is `None` when `null`, and is
string-coerced otherwise. -/
def parseExecutionInputBBox (kvs : PyDict) : V ExecutionInputBBox := do
  let bbox ← parseReqField bboxListValidator "bbox" kvs
  let crs ←
    match kvs.lookup "crs" with
    | Option.none => Except.ok (Option.some crs84)
    | Option.some .none => Except.ok Option.none
    | Option.some v => (liftV "crs" (strValidator v)).map Option.some
  pure ⟨bbox, crs⟩

/-- Resolve one element of `ExecutionInputValueNoObjectArray.__root__`
against `Union[ExecutionInputBBox, int, str, …Array]`, left to right (the
array model has no `smart_union`): a dict (or list of pairs) is tried as a
bbox first; `int_validator` then coerces bools, floats (truncating) and
integer strings; remaining strings stay strings; remaining lists recurse as
nested arrays.  Fuel is structural and initialised from `PyValue.size`,
which every nesting level strictly decreases, so it never runs out on a
call from the top-level resolvers. -/
def parseExecutionArrayElemFuel : Nat → PyValue → V ExecutionArrayElem
  | 0, _ => Except.error (VErr.failure "fuel")
  | fuel + 1, v =>
    match v with
    | .dict kvs => (parseExecutionInputBBox kvs).map .bbox
    | .bool b => Except.ok (.int (if b then 1 else 0))
    | .int n => Except.ok (.int n)
    | .float q => Except.ok (.int (truncQ q))
    | .str s =>
      match strToInt? s with
      | Option.some n => Except.ok (.int n)
      | Option.none => Except.ok (.str s)
    | .list xs =>
      match asDictLike.pairsToDict xs with
      | Option.some kvs =>
        match parseExecutionInputBBox kvs with
        | Except.ok b => Except.ok (.bbox b)
        | Except.error _ =>
          (validateVListElems (parseExecutionArrayElemFuel fuel) xs).map .array
      | Option.none =>
        (validateVListElems (parseExecutionArrayElemFuel fuel) xs).map .array
    | .none => Except.error (VErr.failure "array-elem")

/-- Validate `ExecutionInputValueNoObjectArray`: the root must be a list,
each element resolved by `parseExecutionArrayElemFuel`. -/
def parseExecutionNoObjectArrayFuel (fuel : Nat) :
    PyValue → V (List ExecutionArrayElem)
  | .list xs => validateVListElems (parseExecutionArrayElemFuel fuel) xs
  | _ => Except.error (VErr.failure "array")

/-- Resolve `ExecutionInputValueNoObject.__root__` under `smart_union`:
a value whose Python class is exactly `bool`, `float`, `int` or `str` is
returned as-is (smart-union instance pass); otherwise members are tried
left to right — `ExecutionInputBBox` (a dict, or a list of pairs via
`dict(v)`), then `bool`/`float`/`int` (all of which reject dicts, lists and
`None`), then the array model, then `str`. -/
def parseExecutionInputValueNoObjectFuel (fuel : Nat) (v : PyValue) :
    V ExecutionInputValueNoObject :=
  match v with
  | .bool b => Except.ok (.bool b)
  | .float q => Except.ok (.float q)
  | .int n => Except.ok (.int n)
  | .str s => Except.ok (.str s)
  | .dict kvs => (parseExecutionInputBBox kvs).map .bbox
  | .list xs =>
    match asDictLike.pairsToDict xs with
    | Option.some kvs =>
      match parseExecutionInputBBox kvs with
      | Except.ok b => Except.ok (.bbox b)
      | Except.error _ =>
        (validateVListElems (parseExecutionArrayElemFuel fuel) xs).map .array
    | Option.none =>
      (validateVListElems (parseExecutionArrayElemFuel fuel) xs).map .array
  | .none => Except.error (VErr.failure "inputValueNoObject")

/-- `Optional[Union[str, dict]]` (the `schema` field of
`ExecutionFormat`): strings (with `str()` coercion of numbers/bools) win
over dicts. -/
def strOrDictValidator (v : PyValue) : Option (String ⊕ PyDict) :=
  match strValidator v with
  | Option.some s => Option.some (Sum.inl s)
  | Option.none => (asDictLike v).map Sum.inr

/-- Parse an `ExecutionFormat` from a field dict. -/
def parseExecutionFormat (kvs : PyDict) : V ExecutionFormat := do
  let mt ← parseOptField strValidator "mediaType" kvs
  let enc ← parseOptField strValidator "encoding" kvs
  let sch ← parseOptField strOrDictValidator "schema" kvs
  pure ⟨mt, enc, sch⟩

/-- Parse an `ExecutionQualifiedInputValue` from a field dict: required
`value` resolved against `Union[ExecutionInputValueNoObject, dict]`, and
the optional format read from the literal key `"format_"` (the source field
declares no alias). -/
def parseExecutionQualifiedInputValueFuel (fuel : Nat) (kvs : PyDict) :
    V ExecutionQualifiedInputValue := do
  let value ←
    match kvs.lookup "value" with
    | Option.none => Except.error (VErr.failure "value")
    | Option.some w =>
      match parseExecutionInputValueNoObjectFuel fuel w with
      | Except.ok no => Except.ok (QualifiedValue.noObject no)
      | Except.error _ =>
        match asDictLike w with
        | Option.some kvs' => Except.ok (QualifiedValue.obj kvs')
        | Option.none => Except.error (VErr.failure "value")
  let format_ ←
    match kvs.lookup "format_" with
    | Option.none => Except.ok Option.none
    | Option.some .none => Except.ok Option.none
    | Option.some w => (validateModel parseExecutionFormat "format_" w).map Option.some
  pure ⟨value, format_⟩

/-- Resolve one member of the list branch of the `Execution.inputs` value
union (`Union[ExecutionInputValueNoObject, ExecutionQualifiedInputValue,
Link]`, left to right). -/
def resolveExecutionInputItemFuel (fuel : Nat) (v : PyValue) :
    V ExecutionInputItem :=
  match parseExecutionInputValueNoObjectFuel fuel v with
  | Except.ok no => Except.ok (.noObject no)
  | Except.error _ =>
    match validateModel (parseExecutionQualifiedInputValueFuel fuel) "qualified" v with
    | Except.ok q => Except.ok (.qualified q)
    | Except.error _ => (validateModel parseLink "link" v).map .link

/-- Resolve one raw value of `Execution.inputs` against
`Union[ExecutionInputValueNoObject, ExecutionQualifiedInputValue, Link,
List[Union[…]]]`, left to right (the `Execution` model sets no
`smart_union`). -/
def resolveExecutionInputValueFuel (fuel : Nat) (v : PyValue) :
    V ExecutionInputValue :=
  match parseExecutionInputValueNoObjectFuel fuel v with
  | Except.ok no => Except.ok (.noObject no)
  | Except.error _ =>
    match validateModel (parseExecutionQualifiedInputValueFuel fuel) "qualified" v with
    | Except.ok q => Except.ok (.qualified q)
    | Except.error _ =>
      match validateModel parseLink "link" v with
      | Except.ok l => Except.ok (.link l)
      | Except.error _ =>
        match v with
        | .list xs =>
          (validateVListElems (resolveExecutionInputItemFuel fuel) xs).map .seq
        | _ => Except.error (VErr.failure "inputs")

/-- The resolver for one raw value of `Execution.inputs`: fuel is
initialised from the value's structural size, which strictly bounds the
recursion depth, so the fuel guard is never hit. -/
def resolveExecutionInputValue (v : PyValue) : V ExecutionInputValue :=
  resolveExecutionInputValueFuel v.size v

/-! ## Extraction lemmas

The parsers are sequential `do`-chains in `V`; these lemmas recover each
field parser's result from a successful whole-model parse. -/

/-- A successful bind splits into a successful step and continuation. -/
theorem vBind_ok {α β : Type} {e : V α} {f : α → V β} {b : β} :
    e >>= f = Except.ok b ↔ ∃ a, e = Except.ok a ∧ f a = Except.ok b := by
  cases e <;> simp [Bind.bind, Except.bind]

/-- A successful `parseSchemaScalars` determines every field from its own
field parser, and the recorded field set from the document keys. -/
theorem parseSchemaScalars_fields {kvs : PyDict} {sc : SchemaScalars}
    (h : parseSchemaScalars kvs = Except.ok sc) :
    parseOptField strValidator "title" kvs = Except.ok sc.title
    ∧ parseOptField floatValidator "multipleOf" kvs = Except.ok sc.multiple_of
    ∧ parseOptField floatValidator "maximum" kvs = Except.ok sc.maximum
    ∧ parseDefField boolValidator false "exclusiveMaximum" kvs = Except.ok sc.exclusive_maximum
    ∧ parseOptField floatValidator "minimum" kvs = Except.ok sc.minimum
    ∧ parseDefField boolValidator false "exclusiveMinimum" kvs = Except.ok sc.exclusive_minimum
    ∧ parseOptField nonNegInt "maxLength" kvs = Except.ok sc.max_length
    ∧ parseDefField nonNegInt 0 "minLength" kvs = Except.ok sc.min_length
    ∧ parseOptField strValidator "pattern" kvs = Except.ok sc.pattern
    ∧ parseOptField nonNegInt "maxItems" kvs = Except.ok sc.max_items
    ∧ parseDefField nonNegInt 0 "minItems" kvs = Except.ok sc.min_items
    ∧ parseDefField boolValidator false "uniqueItems" kvs = Except.ok sc.unique_items
    ∧ parseOptField nonNegInt "maxProperties" kvs = Except.ok sc.max_properties
    ∧ parseDefField nonNegInt 0 "minProperties" kvs = Except.ok sc.min_properties
    ∧ parseOptField conlistStrUnique "required" kvs = Except.ok sc.required
    ∧ parseOptField conlistAny "enum" kvs = Except.ok sc.enum
    ∧ parseOptField (enumStrValidator processIOTypeValues) "type" kvs = Except.ok sc.type_
    ∧ parseOptField strValidator "description" kvs = Except.ok sc.description
    ∧ parseOptField (enumStrValidator processIOFormatValues) "format" kvs = Except.ok sc.format_
    ∧ parseOptField jsonDictValidator "default" kvs = Except.ok sc.default
    ∧ parseDefField boolValidator false "nullable" kvs = Except.ok sc.nullable
    ∧ parseDefField boolValidator false "readOnly" kvs = Except.ok sc.read_only
    ∧ parseDefField boolValidator false "writeOnly" kvs = Except.ok sc.write_only
    ∧ parseOptField jsonDictValidator "example" kvs = Except.ok sc.example_
    ∧ parseDefField boolValidator false "deprecated" kvs = Except.ok sc.deprecated
    ∧ parseOptField strValidator "contentMediaType" kvs = Except.ok sc.content_media_type
    ∧ parseOptField strValidator "contentEncoding" kvs = Except.ok sc.content_encoding
    ∧ parseOptField strValidator "contentSchema" kvs = Except.ok sc.content_schema
    ∧ sc.fieldsSet = schemaFieldsSet kvs := by
  unfold parseSchemaScalars at h
  obtain ⟨a1, h1, h⟩ := vBind_ok.mp h
  obtain ⟨a2, h2, h⟩ := vBind_ok.mp h
  obtain ⟨a3, h3, h⟩ := vBind_ok.mp h
  obtain ⟨a4, h4, h⟩ := vBind_ok.mp h
  obtain ⟨a5, h5, h⟩ := vBind_ok.mp h
  obtain ⟨a6, h6, h⟩ := vBind_ok.mp h
  obtain ⟨a7, h7, h⟩ := vBind_ok.mp h
  obtain ⟨a8, h8, h⟩ := vBind_ok.mp h
  obtain ⟨a9, h9, h⟩ := vBind_ok.mp h
  obtain ⟨a10, h10, h⟩ := vBind_ok.mp h
  obtain ⟨a11, h11, h⟩ := vBind_ok.mp h
  obtain ⟨a12, h12, h⟩ := vBind_ok.mp h
  obtain ⟨a13, h13, h⟩ := vBind_ok.mp h
  obtain ⟨a14, h14, h⟩ := vBind_ok.mp h
  obtain ⟨a15, h15, h⟩ := vBind_ok.mp h
  obtain ⟨a16, h16, h⟩ := vBind_ok.mp h
  obtain ⟨a17, h17, h⟩ := vBind_ok.mp h
  obtain ⟨a18, h18, h⟩ := vBind_ok.mp h
  obtain ⟨a19, h19, h⟩ := vBind_ok.mp h
  obtain ⟨a20, h20, h⟩ := vBind_ok.mp h
  obtain ⟨a21, h21, h⟩ := vBind_ok.mp h
  obtain ⟨a22, h22, h⟩ := vBind_ok.mp h
  obtain ⟨a23, h23, h⟩ := vBind_ok.mp h
  obtain ⟨a24, h24, h⟩ := vBind_ok.mp h
  obtain ⟨a25, h25, h⟩ := vBind_ok.mp h
  obtain ⟨a26, h26, h⟩ := vBind_ok.mp h
  obtain ⟨a27, h27, h⟩ := vBind_ok.mp h
  obtain ⟨a28, h28, h⟩ := vBind_ok.mp h
  have hsc : sc = _ := (Except.ok.inj h).symm
  subst hsc
  exact ⟨h1, h2, h3, h4, h5, h6, h7, h8, h9, h10, h11, h12, h13, h14, h15,
    h16, h17, h18, h19, h20, h21, h22, h23, h24, h25, h26, h27, h28, rfl⟩

/-- A successful `ProcessIOSchema` parse (at successor fuel, on a dict)
determines every component of the node from its own field parser. -/
theorem parseProcessIOSchemaFuel_fields {fuel : Nat} {kvs : PyDict}
    {n : SchemaNode}
    (h : parseProcessIOSchemaFuel (fuel + 1) (.dict kvs) = Except.ok n) :
    parseSchemaScalars kvs = Except.ok n.scalars
    ∧ parseOptSchemaWith (parseProcessIOSchemaFuel fuel) "not" kvs = Except.ok n.not_
    ∧ parseOptSchemaListWith (parseProcessIOSchemaFuel fuel) "allOf" kvs = Except.ok n.allOf
    ∧ parseOptSchemaListWith (parseProcessIOSchemaFuel fuel) "oneOf" kvs = Except.ok n.oneOf
    ∧ parseOptSchemaListWith (parseProcessIOSchemaFuel fuel) "anyOf" kvs = Except.ok n.anyOf
    ∧ parseOptSchemaListWith (parseProcessIOSchemaFuel fuel) "items" kvs = Except.ok n.items
    ∧ parseOptSchemaWith (parseProcessIOSchemaFuel fuel) "properties" kvs = Except.ok n.properties
    ∧ parseAdditionalPropsWith (parseProcessIOSchemaFuel fuel) kvs
      = Except.ok n.additional_properties := by
  unfold parseProcessIOSchemaFuel at h
  simp only [asDictLike] at h
  obtain ⟨a1, h1, h⟩ := vBind_ok.mp h
  obtain ⟨a2, h2, h⟩ := vBind_ok.mp h
  obtain ⟨a3, h3, h⟩ := vBind_ok.mp h
  obtain ⟨a4, h4, h⟩ := vBind_ok.mp h
  obtain ⟨a5, h5, h⟩ := vBind_ok.mp h
  obtain ⟨a6, h6, h⟩ := vBind_ok.mp h
  obtain ⟨a7, h7, h⟩ := vBind_ok.mp h
  obtain ⟨a8, h8, h⟩ := vBind_ok.mp h
  have hn : n = SchemaNode.mk a1 a2 a3 a4 a5 a6 a7 a8 := (Except.ok.inj h).symm
  subst hn
  exact ⟨h1, h2, h3, h4, h5, h6, h7, h8⟩

/-- An absent optional field parses to `none`. -/
theorem parseOptField_absent {α : Type} (val : PyValue → Option α)
    (alias_ : String) (kvs : PyDict) (h : kvs.lookup alias_ = Option.none) :
    parseOptField val alias_ kvs = Except.ok Option.none := by
  unfold parseOptField
  rw [h]

/-- An absent defaulted field parses to its default. -/
theorem parseDefField_absent {α : Type} (val : PyValue → Option α)
    (default_ : α) (alias_ : String) (kvs : PyDict)
    (h : kvs.lookup alias_ = Option.none) :
    parseDefField val default_ alias_ kvs = Except.ok default_ := by
  unfold parseDefField
  rw [h]

/-- Two `Except.ok` results of the same computation agree. -/
theorem ok_inj {α : Type} {e : V α} {a b : α}
    (h1 : e = Except.ok a) (h2 : e = Except.ok b) : a = b :=
  Except.ok.inj (h1.symm.trans h2)

/-- An absent `additionalProperties` parses to `True`. -/
theorem parseAdditionalPropsWith_absent (p : PyValue → V SchemaNode)
    (kvs : PyDict) (h : kvs.lookup "additionalProperties" = Option.none) :
    parseAdditionalPropsWith p kvs = Except.ok (BoolOrSchema.bool true) := by
  unfold parseAdditionalPropsWith
  rw [h]

/-- The default `ProcessIOSchema` node: the parse of the empty document. -/
def defaultSchemaNode : SchemaNode :=
  .mk
    { title := Option.none, multiple_of := Option.none, maximum := Option.none,
      exclusive_maximum := false, minimum := Option.none,
      exclusive_minimum := false, max_length := Option.none, min_length := 0,
      pattern := Option.none, max_items := Option.none, min_items := 0,
      unique_items := false, max_properties := Option.none, min_properties := 0,
      required := Option.none, enum := Option.none, type_ := Option.none,
      description := Option.none, format_ := Option.none, default := Option.none,
      nullable := false, read_only := false, write_only := false,
      example_ := Option.none, deprecated := false,
      content_media_type := Option.none, content_encoding := Option.none,
      content_schema := Option.none, fieldsSet := [] }
    .none .none .none .none .none .none (.bool true)

/-- A mapped `liftV` success recovers the validator's result. -/
theorem liftV_map_ok {α : Type} {loc : String} {o : Option α} {x : α}
    (h : Except.map Option.some (liftV loc o) = Except.ok (Option.some x)) :
    o = Option.some x := by
  cases o with
  | none => simp [liftV, Except.map] at h
  | some y =>
    simp [liftV, Except.map] at h
    rw [h]

/-- A successful optional field carrying a value comes from a present,
non-null raw value accepted by the validator. -/
theorem parseOptField_ok_some {α : Type} {val : PyValue → Option α}
    {alias_ : String} {kvs : PyDict} {x : α}
    (h : parseOptField val alias_ kvs = Except.ok (Option.some x)) :
    ∃ v, kvs.lookup alias_ = Option.some v ∧ val v = Option.some x := by
  unfold parseOptField at h
  cases hl : kvs.lookup alias_ with
  | none => rw [hl] at h; simp at h
  | some v =>
    rw [hl] at h
    refine ⟨v, rfl, ?_⟩
    cases v <;> first
      | exact liftV_map_ok h
      | simp at h

/-- `conlist(Any, min_items=1)` only accepts non-empty lists. -/
theorem conlistAny_nonempty {v : PyValue} {l : List PyValue}
    (h : conlistAny v = Option.some l) : l ≠ [] := by
  unfold conlistAny at h
  cases v <;> simp at h
  obtain ⟨hlen, hl⟩ := h
  subst hl
  exact List.ne_nil_of_length_pos hlen

/-- `conlist(str, min_items=1, unique_items=True)` only accepts non-empty
duplicate-free lists. -/
theorem conlistStrUnique_nonempty_nodup {v : PyValue} {l : List String}
    (h : conlistStrUnique v = Option.some l) : l ≠ [] ∧ l.Nodup := by
  unfold conlistStrUnique at h
  cases hv : listValidator strValidator v with
  | none => rw [hv] at h; simp at h
  | some ss =>
    rw [hv] at h
    dsimp only at h
    by_cases hc : ss.length ≥ 1 ∧ ss.Nodup
    · rw [if_pos hc] at h
      obtain rfl := Option.some.inj h
      exact ⟨List.ne_nil_of_length_pos hc.1, hc.2⟩
    · rw [if_neg hc] at h
      simp at h

/-! ## Claims -/

/-- C8: for every raw schema fragment, when the corresponding keys are
absent the constructed `SchemaNode` has `exclusive_minimum`,
`exclusive_maximum`, `unique_items`, `nullable`, `read_only`, `write_only`
and `deprecated` equal to `false`; `min_length`, `min_items` and
`min_properties` equal to `0`; and `additional_properties` equal to
`true`. -/
theorem schema_defaults_when_absent {kvs : PyDict} {n : SchemaNode}
    (h : parseProcessIOSchema (.dict kvs) = Except.ok n) :
    (kvs.lookup "exclusiveMinimum" = Option.none → n.scalars.exclusive_minimum = false)
    ∧ (kvs.lookup "exclusiveMaximum" = Option.none → n.scalars.exclusive_maximum = false)
    ∧ (kvs.lookup "uniqueItems" = Option.none → n.scalars.unique_items = false)
    ∧ (kvs.lookup "nullable" = Option.none → n.scalars.nullable = false)
    ∧ (kvs.lookup "readOnly" = Option.none → n.scalars.read_only = false)
    ∧ (kvs.lookup "writeOnly" = Option.none → n.scalars.write_only = false)
    ∧ (kvs.lookup "deprecated" = Option.none → n.scalars.deprecated = false)
    ∧ (kvs.lookup "minLength" = Option.none → n.scalars.min_length = 0)
    ∧ (kvs.lookup "minItems" = Option.none → n.scalars.min_items = 0)
    ∧ (kvs.lookup "minProperties" = Option.none → n.scalars.min_properties = 0)
    ∧ (kvs.lookup "additionalProperties" = Option.none →
        n.additional_properties = .bool true) := by
  rw [parseProcessIOSchema] at h
  simp only [PyValue.size] at h
  have hb := parseProcessIOSchemaFuel_fields h
  have ha := parseSchemaScalars_fields hb.1
  refine ⟨fun hk => ?_, fun hk => ?_, fun hk => ?_, fun hk => ?_, fun hk => ?_,
    fun hk => ?_, fun hk => ?_, fun hk => ?_, fun hk => ?_, fun hk => ?_,
    fun hk => ?_⟩
  · exact ok_inj ha.2.2.2.2.2.1
      (parseDefField_absent boolValidator false "exclusiveMinimum" kvs hk)
  · exact ok_inj ha.2.2.2.1
      (parseDefField_absent boolValidator false "exclusiveMaximum" kvs hk)
  · exact ok_inj ha.2.2.2.2.2.2.2.2.2.2.2.1
      (parseDefField_absent boolValidator false "uniqueItems" kvs hk)
  · exact ok_inj ha.2.2.2.2.2.2.2.2.2.2.2.2.2.2.2.2.2.2.2.2.1
      (parseDefField_absent boolValidator false "nullable" kvs hk)
  · exact ok_inj ha.2.2.2.2.2.2.2.2.2.2.2.2.2.2.2.2.2.2.2.2.2.1
      (parseDefField_absent boolValidator false "readOnly" kvs hk)
  · exact ok_inj ha.2.2.2.2.2.2.2.2.2.2.2.2.2.2.2.2.2.2.2.2.2.2.1
      (parseDefField_absent boolValidator false "writeOnly" kvs hk)
  · exact ok_inj ha.2.2.2.2.2.2.2.2.2.2.2.2.2.2.2.2.2.2.2.2.2.2.2.2.1
      (parseDefField_absent boolValidator false "deprecated" kvs hk)
  · exact ok_inj ha.2.2.2.2.2.2.2.1
      (parseDefField_absent nonNegInt 0 "minLength" kvs hk)
  · exact ok_inj ha.2.2.2.2.2.2.2.2.2.2.1
      (parseDefField_absent nonNegInt 0 "minItems" kvs hk)
  · exact ok_inj ha.2.2.2.2.2.2.2.2.2.2.2.2.2.1
      (parseDefField_absent nonNegInt 0 "minProperties" kvs hk)
  · exact ok_inj hb.2.2.2.2.2.2.2
      (parseAdditionalPropsWith_absent _ kvs hk)

/-- C5: a raw schema fragment with an empty `enum` or `required` sequence
is rejected; in every successfully constructed node, `enum` (when present)
is non-empty with duplicates permitted, and `required` (when present) is
non-empty and duplicate-free. -/
theorem enum_required_nonempty_invariant :
    (∀ kvs : PyDict, kvs.lookup "enum" = Option.some (.list .nil) →
      (parseProcessIOSchema (.dict kvs)).isOk = false)
    ∧ (∀ kvs : PyDict, kvs.lookup "required" = Option.some (.list .nil) →
      (parseProcessIOSchema (.dict kvs)).isOk = false)
    ∧ (∀ (kvs : PyDict) (n : SchemaNode),
        parseProcessIOSchema (.dict kvs) = Except.ok n →
        (∀ l, n.scalars.enum = Option.some l → l ≠ [])
        ∧ (∀ l, n.scalars.required = Option.some l → l ≠ [] ∧ l.Nodup))
    ∧ (parseProcessIOSchema
        (.dict (.cons "enum" (.list (.cons (.int 1) (.cons (.int 1) .nil))) .nil))).map
        (fun n => n.scalars.enum) = Except.ok (Option.some [.int 1, .int 1]) := by
  refine ⟨?_, ?_, ?_, by rfl⟩
  · intro kvs hk
    cases hok : parseProcessIOSchema (.dict kvs) with
    | error e => rfl
    | ok n =>
      exfalso
      rw [parseProcessIOSchema] at hok
      simp only [PyValue.size] at hok
      have ha := parseSchemaScalars_fields (parseProcessIOSchemaFuel_fields hok).1
      have he := ha.2.2.2.2.2.2.2.2.2.2.2.2.2.2.2.1
      unfold parseOptField at he
      rw [hk] at he
      simp [liftV, conlistAny, PyList.toList, Except.map] at he
  · intro kvs hk
    cases hok : parseProcessIOSchema (.dict kvs) with
    | error e => rfl
    | ok n =>
      exfalso
      rw [parseProcessIOSchema] at hok
      simp only [PyValue.size] at hok
      have ha := parseSchemaScalars_fields (parseProcessIOSchemaFuel_fields hok).1
      have hr := ha.2.2.2.2.2.2.2.2.2.2.2.2.2.2.1
      unfold parseOptField at hr
      rw [hk] at hr
      simp [liftV, conlistStrUnique, listValidator, validateListElems, Except.map] at hr
  · intro kvs n h
    rw [parseProcessIOSchema] at h
    simp only [PyValue.size] at h
    have ha := parseSchemaScalars_fields (parseProcessIOSchemaFuel_fields h).1
    constructor
    · intro l hl
      have he := ha.2.2.2.2.2.2.2.2.2.2.2.2.2.2.2.1
      rw [hl] at he
      obtain ⟨v, _, hv⟩ := parseOptField_ok_some he
      exact conlistAny_nonempty hv
    · intro l hl
      have hr := ha.2.2.2.2.2.2.2.2.2.2.2.2.2.2.1
      rw [hl] at hr
      obtain ⟨v, _, hv⟩ := parseOptField_ok_some hr
      exact conlistStrUnique_nonempty_nodup hv

/-- C5 witness: the empty-`enum` and empty-`required` fragments are
rejected. -/
theorem enum_required_nonempty_invariant_witness :
    (parseProcessIOSchema (.dict (.cons "enum" (.list .nil) .nil))).isOk = false
    ∧ (parseProcessIOSchema (.dict (.cons "required" (.list .nil) .nil))).isOk = false :=
  ⟨enum_required_nonempty_invariant.1 _ (by rfl),
   enum_required_nonempty_invariant.2.1 _ (by rfl)⟩

/-- C2 counterexample: the fragment `{"minLength": 10, "maxLength": 5}` is
*not* rejected — it parses successfully into a node carrying
`min_length = 10 > max_length = 5`, so no `min_* ≤ max_*` validation
exists. -/
theorem minLength_gt_maxLength_accepted :
    (parseProcessIOSchema
      (.dict (.cons "minLength" (.int 10) (.cons "maxLength" (.int 5) .nil)))).map
      (fun n => (n.scalars.min_length, n.scalars.max_length))
    = Except.ok (10, Option.some 5) := by rfl

/-- C2 (amended): the schema validator checks `minLength`/`maxLength` only
independently against their `ge=0` bounds and never against each other:
for all naturals `m`, `M` — including `m > M` — the fragment
`{"minLength": m, "maxLength": M}` is accepted, yielding
`min_length = m` and `max_length = M`. -/
theorem minmax_bounds_not_cross_validated (m M : ℤ) (hm : 0 ≤ m) (hM : 0 ≤ M) :
    (parseProcessIOSchema
      (.dict (.cons "minLength" (.int m) (.cons "maxLength" (.int M) .nil)))).map
      (fun n => (n.scalars.min_length, n.scalars.max_length))
    = Except.ok (m, Option.some M) := by
  have em : nonNegInt (.int m) = Option.some m := by
    unfold nonNegInt intValidator
    simp [hm]
  have eM : nonNegInt (.int M) = Option.some M := by
    unfold nonNegInt intValidator
    simp [hM]
  have h7 : parseOptField nonNegInt "maxLength"
      (.cons "minLength" (.int m) (.cons "maxLength" (.int M) .nil))
      = Except.ok (Option.some M) := by
    show (liftV "maxLength" (nonNegInt (.int M))).map Option.some = _
    rw [eM]
    rfl
  have h8 : parseDefField nonNegInt 0 "minLength"
      (.cons "minLength" (.int m) (.cons "maxLength" (.int M) .nil))
      = Except.ok m := by
    show liftV "minLength" (nonNegInt (.int m)) = _
    rw [em]
    rfl
  have hsc : parseSchemaScalars
      (.cons "minLength" (.int m) (.cons "maxLength" (.int M) .nil))
      = Except.ok
      { title := Option.none, multiple_of := Option.none, maximum := Option.none,
        exclusive_maximum := false, minimum := Option.none,
        exclusive_minimum := false, max_length := Option.some M, min_length := m,
        pattern := Option.none, max_items := Option.none, min_items := 0,
        unique_items := false, max_properties := Option.none, min_properties := 0,
        required := Option.none, enum := Option.none, type_ := Option.none,
        description := Option.none, format_ := Option.none, default := Option.none,
        nullable := false, read_only := false, write_only := false,
        example_ := Option.none, deprecated := false,
        content_media_type := Option.none, content_encoding := Option.none,
        content_schema := Option.none, fieldsSet := ["maxLength", "minLength"] } := by
    unfold parseSchemaScalars
    rw [h7, h8]
    rfl
  have hn : parseProcessIOSchema
      (.dict (.cons "minLength" (.int m) (.cons "maxLength" (.int M) .nil)))
      = parseProcessIOSchemaFuel 6
        (.dict (.cons "minLength" (.int m) (.cons "maxLength" (.int M) .nil))) := rfl
  rw [hn]
  unfold parseProcessIOSchemaFuel
  rw [show asDictLike
      (.dict (.cons "minLength" (.int m) (.cons "maxLength" (.int M) .nil)))
      = Option.some (.cons "minLength" (.int m) (.cons "maxLength" (.int M) .nil))
      from rfl]
  dsimp only
  rw [hsc]
  rfl

/-- C2 witness: the amended acceptance at the spec's own example pair. -/
theorem minmax_bounds_not_cross_validated_witness :
    (parseProcessIOSchema
      (.dict (.cons "minLength" (.int 10) (.cons "maxLength" (.int 5) .nil)))).map
      (fun n => (n.scalars.min_length, n.scalars.max_length))
    = Except.ok (10, Option.some 5) :=
  minmax_bounds_not_cross_validated 10 5 (by decide) (by decide)

/-- C8 witness: the empty document parses to the all-defaults node. -/
theorem schema_defaults_when_absent_witness :
    parseProcessIOSchema (.dict .nil) = Except.ok defaultSchemaNode
    ∧ defaultSchemaNode.scalars.exclusive_minimum = false
    ∧ defaultSchemaNode.scalars.min_length = 0
    ∧ defaultSchemaNode.additional_properties = .bool true := by
  refine ⟨by rfl, ?_, ?_, ?_⟩
  · exact (@schema_defaults_when_absent PyDict.nil defaultSchemaNode (by rfl)).1 (by rfl)
  · exact (@schema_defaults_when_absent PyDict.nil defaultSchemaNode
      (by rfl)).2.2.2.2.2.2.2.1 (by rfl)
  · exact (@schema_defaults_when_absent PyDict.nil defaultSchemaNode
      (by rfl)).2.2.2.2.2.2.2.2.2.2 (by rfl)

/-- A successful `ProcessInput` parse determines every field from its own
field parser. -/
theorem parseProcessInputFuel_fields {fuel : Nat} {kvs : PyDict}
    {i : ProcessInput} (h : parseProcessInputFuel fuel kvs = Except.ok i) :
    parseOptField strValidator "title" kvs = Except.ok i.title
    ∧ parseOptField strValidator "description" kvs = Except.ok i.description
    ∧ parseReqFieldV (parseProcessIOSchemaFuel fuel) "schema" kvs = Except.ok i.schema_
    ∧ parseOptField (listValidator strValidator) "keywords" kvs = Except.ok i.keywords
    ∧ parseOptFieldV (listValidatorV (validateModel parseProcessMetadata "metadata"))
        "metadata" kvs = Except.ok i.metadata
    ∧ parseDefField intValidator 1 "minOccurs" kvs = Except.ok i.min_occurs
    ∧ parseDefField maxOccursValidator (.int 1) "maxOccurs" kvs = Except.ok i.max_occurs
    ∧ parseOptFieldV (validateModel parseAdditionalProcessIOParameters "additional_parameters")
        "additional_parameters" kvs = Except.ok i.additional_parameters := by
  unfold parseProcessInputFuel at h
  obtain ⟨a1, h1, h⟩ := vBind_ok.mp h
  obtain ⟨a2, h2, h⟩ := vBind_ok.mp h
  obtain ⟨a3, h3, h⟩ := vBind_ok.mp h
  obtain ⟨a4, h4, h⟩ := vBind_ok.mp h
  obtain ⟨a5, h5, h⟩ := vBind_ok.mp h
  obtain ⟨a6, h6, h⟩ := vBind_ok.mp h
  obtain ⟨a7, h7, h⟩ := vBind_ok.mp h
  obtain ⟨a8, h8, h⟩ := vBind_ok.mp h
  have hi : i = _ := (Except.ok.inj h).symm
  subst hi
  exact ⟨h1, h2, h3, h4, h5, h6, h7, h8⟩

/-- A successful `Process` parse determines every field from its own field
parser. -/
theorem parseProcessFuel_fields {fuel : Nat} {kvs : PyDict} {p : Process}
    (h : parseProcessFuel fuel kvs = Except.ok p) :
    parseReqField strStrDictValidator "title" kvs = Except.ok p.title
    ∧ parseReqField strStrDictValidator "description" kvs = Except.ok p.description
    ∧ parseReqField (listValidator strValidator) "keywords" kvs = Except.ok p.keywords
    ∧ parseReqField strValidator "version" kvs = Except.ok p.version
    ∧ parseReqField strValidator "id" kvs = Except.ok p.id
    ∧ parseReqField (listValidator processJobControlOptionValidator)
        "jobControlOptions" kvs = Except.ok p.job_control_options
    ∧ parseDefField (listValidator processOutputTransmissionModeValidator)
        [.value] "outputTransmission" kvs = Except.ok p.output_transmission
    ∧ parseReqFieldV (listValidatorV (validateModel parseLink "links")) "links" kvs
        = Except.ok p.links
    ∧ parseReqFieldV
        (dictOfModelsValidator (validateModel (parseProcessInputFuel fuel) "inputs"))
        "inputs" kvs = Except.ok p.inputs
    ∧ parseReqFieldV
        (dictOfModelsValidator (validateModel (parseProcessOutputFuel fuel) "outputs"))
        "outputs" kvs = Except.ok p.outputs
    ∧ parseOptField asDictLike "example" kvs = Except.ok p.example_ := by
  unfold parseProcessFuel at h
  obtain ⟨a1, h1, h⟩ := vBind_ok.mp h
  obtain ⟨a2, h2, h⟩ := vBind_ok.mp h
  obtain ⟨a3, h3, h⟩ := vBind_ok.mp h
  obtain ⟨a4, h4, h⟩ := vBind_ok.mp h
  obtain ⟨a5, h5, h⟩ := vBind_ok.mp h
  obtain ⟨a6, h6, h⟩ := vBind_ok.mp h
  obtain ⟨a7, h7, h⟩ := vBind_ok.mp h
  obtain ⟨a8, h8, h⟩ := vBind_ok.mp h
  obtain ⟨a9, h9, h⟩ := vBind_ok.mp h
  obtain ⟨a10, h10, h⟩ := vBind_ok.mp h
  obtain ⟨a11, h11, h⟩ := vBind_ok.mp h
  have hp : p = _ := (Except.ok.inj h).symm
  subst hp
  exact ⟨h1, h2, h3, h4, h5, h6, h7, h8, h9, h10, h11⟩

/-- C6 counterexample: a `ProcessInput` document with `minOccurs = -1` and
`maxOccurs = 0` is accepted as-is — no `min_occurs ≥ 0` or
`max_occurs > 0` validation exists. -/
theorem negative_minOccurs_accepted :
    (parseProcessInput (.dict (.cons "schema" (.dict .nil)
      (.cons "minOccurs" (.int (-1)) (.cons "maxOccurs" (.int 0) .nil))))).map
      (fun i => (i.min_occurs, i.max_occurs)) = Except.ok (-1, .int 0) := by rfl

/-- C6 (amended): `min_occurs` is an arbitrary integer (default `1`) and
`max_occurs` an arbitrary integer or the sentinel `"unbounded"` (default
`1`); the source declares no sign or positivity bounds, so every integer
pair — including negative `minOccurs` and non-positive `maxOccurs` — is
accepted verbatim. -/
theorem occurs_bounds_unvalidated :
    (∀ m M : ℤ,
      (parseProcessInput (.dict (.cons "schema" (.dict .nil)
        (.cons "minOccurs" (.int m) (.cons "maxOccurs" (.int M) .nil))))).map
        (fun i => (i.min_occurs, i.max_occurs)) = Except.ok (m, .int M))
    ∧ (parseProcessInput (.dict (.cons "schema" (.dict .nil)
        (.cons "maxOccurs" (.str "unbounded") .nil)))).map
        (fun i => i.max_occurs) = Except.ok .unbounded :=
  ⟨fun _ _ => rfl, rfl⟩

/-- The `ProcessInput` obtained from `{"schema": {}}`. -/
def defaultProcessInput : ProcessInput :=
  ⟨Option.none, Option.none, defaultSchemaNode, Option.none, Option.none, 1,
    .int 1, Option.none⟩

/-- C10: a `ProcessInput` document with both `minOccurs` and `maxOccurs`
absent constructs a `ProcessInput` with `min_occurs = 1` and
`max_occurs = 1`. -/
theorem occurs_defaults_to_one {kvs : PyDict} {i : ProcessInput}
    (h : parseProcessInput (.dict kvs) = Except.ok i)
    (hmin : kvs.lookup "minOccurs" = Option.none)
    (hmax : kvs.lookup "maxOccurs" = Option.none) :
    i.min_occurs = 1 ∧ i.max_occurs = .int 1 := by
  unfold parseProcessInput validateModel at h
  simp only [asDictLike] at h
  have hf := parseProcessInputFuel_fields h
  exact ⟨ok_inj hf.2.2.2.2.2.1 (parseDefField_absent intValidator 1 "minOccurs" kvs hmin),
    ok_inj hf.2.2.2.2.2.2.1
      (parseDefField_absent maxOccursValidator (.int 1) "maxOccurs" kvs hmax)⟩

/-- C10 witness: `{"schema": {}}` parses with both occurrence bounds
defaulted to `1`. -/
theorem occurs_defaults_to_one_witness :
    parseProcessInput (.dict (.cons "schema" (.dict .nil) .nil))
      = Except.ok defaultProcessInput
    ∧ defaultProcessInput.min_occurs = 1
    ∧ defaultProcessInput.max_occurs = .int 1 := by
  refine ⟨by rfl, ?_, ?_⟩
  · exact (@occurs_defaults_to_one
      (PyDict.cons "schema" (PyValue.dict PyDict.nil) PyDict.nil)
      defaultProcessInput (by rfl) (by rfl) (by rfl)).1
  · exact (@occurs_defaults_to_one
      (PyDict.cons "schema" (PyValue.dict PyDict.nil) PyDict.nil)
      defaultProcessInput (by rfl) (by rfl) (by rfl)).2

/-- A minimal valid `Process` document, parameterised by the raw
`jobControlOptions` value. -/
def processDocBase (jco : PyValue) : PyDict :=
  .cons "title" (.dict .nil) (.cons "description" (.dict .nil)
  (.cons "keywords" (.list .nil) (.cons "version" (.str "1.0") (.cons "id" (.str "p")
  (.cons "jobControlOptions" jco (.cons "links" (.list .nil)
  (.cons "inputs" (.dict .nil) (.cons "outputs" (.dict .nil) .nil))))))))

/-- The `Process` obtained from `processDocBase` with
`["sync-execute", "dismiss"]`. -/
def sampleProcess : Process :=
  ⟨[], [], [], "1.0", "p", [.sync_execute, .dismiss], [.value], [], [], [],
    Option.none⟩

/-- C7 counterexample: a `Process` document with an *empty*
`jobControlOptions` list is accepted — the claimed non-emptiness rejection
does not exist. -/
theorem empty_jobControlOptions_accepted :
    (parseProcess (.dict (processDocBase (.list .nil)))).map
      (fun p => p.job_control_options) = Except.ok [] := by rfl

/-- C7 (amended): `job_control_options` ranges over the closed vocabulary
{`sync-execute`, `async-execute`, `dismiss`} — a token outside it is a
validation error, never passed through — but the empty list is accepted:
the source declares a plain `list` with no non-emptiness constraint. -/
theorem job_control_closed_vocabulary :
    (∀ (kvs : PyDict) (p : Process), parseProcess (.dict kvs) = Except.ok p →
      ∀ jc ∈ p.job_control_options,
        jc ∈ [ProcessJobControlOption.sync_execute, .async_execute, .dismiss])
    ∧ (parseProcess (.dict (processDocBase
        (.list (.cons (.str "both-execute") .nil))))).isOk = false
    ∧ (parseProcess (.dict (processDocBase
        (.list (.cons (.str "sync-execute") (.cons (.str "dismiss") .nil)))))).map
        (fun p => p.job_control_options)
        = Except.ok [.sync_execute, .dismiss] := by
  refine ⟨?_, by rfl, by rfl⟩
  intro kvs p h jc hjc
  cases jc <;> simp

/-- C7 witness: the closed-vocabulary conjunct applied to the concrete
two-token document. -/
theorem job_control_closed_vocabulary_witness :
    ProcessJobControlOption.sync_execute ∈
      [ProcessJobControlOption.sync_execute, .async_execute, .dismiss] :=
  job_control_closed_vocabulary.1
    (processDocBase (.list (.cons (.str "sync-execute") (.cons (.str "dismiss") .nil))))
    sampleProcess (by rfl) .sync_execute (by decide)

/-- C3: for the raw input `{"value": 42, "format": {"mediaType":
"text/plain"}}` the resolver does return the QualifiedValue variant with
`value = 42`, but the wire key `format` is silently ignored — the source
field `format_` carries no `alias="format"` (unlike every sibling model),
so the format descriptor stays `None`; populating the literal field name
`"format_"` is what actually fills it, confirming the missing-alias slip. -/
theorem qualified_format_key_ignored :
    resolveExecutionInputValue (.dict (.cons "value" (.int 42)
      (.cons "format" (.dict (.cons "mediaType" (.str "text/plain") .nil)) .nil)))
      = Except.ok (.qualified ⟨.noObject (.int 42), Option.none⟩)
    ∧ resolveExecutionInputValue (.dict (.cons "value" (.int 42)
      (.cons "format_" (.dict (.cons "mediaType" (.str "text/plain") .nil)) .nil)))
      = Except.ok (.qualified ⟨.noObject (.int 42),
          Option.some ⟨Option.some "text/plain", Option.none, Option.none⟩⟩) :=
  ⟨rfl, rfl⟩

/-- `n`-fold nesting of a raw value in singleton Python lists. -/
def nestPy : Nat → PyValue → PyValue
  | 0, v => v
  | n + 1, v => .list (.cons (nestPy n v) .nil)

/-- `n`-fold nesting of a resolved array element in singleton arrays. -/
def nestArr : Nat → ExecutionArrayElem → ExecutionArrayElem
  | 0, e => e
  | n + 1, e => .array [nestArr n e]

/-- A singleton list whose element is itself a singleton list is not a
key/value pair sequence for `dict()`. -/
theorem pairsToDict_singleton (w : PyValue) :
    asDictLike.pairsToDict (.cons (.list (.cons w .nil)) .nil) = Option.none := by
  cases w <;> rfl

/-- A singleton list around an int-leaf nest is never dict-convertible. -/
theorem nestPy_pairs_none (n : Nat) (k : ℤ) :
    asDictLike.pairsToDict (.cons (nestPy n (.int k)) .nil) = Option.none := by
  cases n with
  | zero => rfl
  | succ m => exact pairsToDict_singleton (nestPy m (.int k))

/-- Structural size of an int-leaf nest. -/
theorem nestPy_size (n : Nat) (k : ℤ) : (nestPy n (.int k)).size = 3 * n + 1 := by
  induction n with
  | zero => rfl
  | succ m ih =>
    show ((PyValue.list (.cons (nestPy m (.int k)) .nil))).size = _
    simp [PyValue.size, PyList.size, ih]
    omega

/-- With fuel exceeding the nesting depth, an int-leaf nest resolves to the
equivalent nested array element. -/
theorem parseArrayElem_nest :
    ∀ (n fuel : Nat) (k : ℤ), n < fuel →
      parseExecutionArrayElemFuel fuel (nestPy n (.int k))
        = Except.ok (nestArr n (.int k)) := by
  intro n
  induction n with
  | zero =>
    intro fuel k h
    match fuel, h with
    | f + 1, _ => rfl
  | succ m ih =>
    intro fuel k h
    match fuel, h with
    | f + 1, h =>
      show parseExecutionArrayElemFuel (f + 1)
        (.list (.cons (nestPy m (.int k)) .nil)) = _
      unfold parseExecutionArrayElemFuel
      dsimp only
      rw [nestPy_pairs_none m k]
      have he := ih f k (Nat.lt_of_succ_lt_succ h)
      simp [validateVListElems, he, Bind.bind, Except.bind, Except.map, nestArr,
        Pure.pure, Except.pure]

/-- C9 counterexample: the array element union is `BBox | int | str |
Array` — it has no float (or bool) member, so a float element is *not*
resolved as a number scalar: `[0.5]` parses to `[0]`, the int validator
truncating the float, which is not an equivalent structure. -/
theorem float_array_elem_truncated :
    resolveExecutionInputValue (.list (.cons (.float (mkRat 1 2)) .nil))
      = Except.ok (.noObject (.array [.int 0])) := by rfl

/-- C9 (amended): an ordered sequence resolves to the Array variant with
elements resolved recursively against `BBox | int | str | nested Array` and
no depth limit imposed by the resolver (an `n`-fold singleton nesting of an
integer leaf yields the equivalent `n`-level nested array, for every `n`);
however boolean and float elements are not preserved as scalars — the lax
int validator coerces them (`True ↦ 1`, floats truncate toward zero). -/
theorem array_recursive_resolution :
    (∀ (n : ℕ) (k : ℤ),
      resolveExecutionInputValue (nestPy (n + 1) (.int k))
        = Except.ok (.noObject (.array [nestArr n (.int k)])))
    ∧ (∀ q : ℚ,
      resolveExecutionInputValue (.list (.cons (.float q) .nil))
        = Except.ok (.noObject (.array [.int (truncQ q)])))
    ∧ (∀ b : Bool,
      resolveExecutionInputValue (.list (.cons (.bool b) .nil))
        = Except.ok (.noObject (.array [.int (if b then 1 else 0)]))) := by
  refine ⟨?_, fun q => rfl, fun b => rfl⟩
  intro n k
  show resolveExecutionInputValueFuel ((nestPy (n + 1) (.int k)).size)
    (nestPy (n + 1) (.int k)) = _
  rw [nestPy_size]
  show resolveExecutionInputValueFuel (3 * (n + 1) + 1)
    (.list (.cons (nestPy n (.int k)) .nil)) = _
  unfold resolveExecutionInputValueFuel parseExecutionInputValueNoObjectFuel
  dsimp only
  rw [nestPy_pairs_none n k]
  have he := parseArrayElem_nest n (3 * (n + 1) + 1) k (by omega)
  simp [validateVListElems, he, Bind.bind, Except.bind, Except.map, Pure.pure,
    Except.pure]

/-- A raw value of Python class `int` or `float`. -/
def isNumeric : PyValue → Bool
  | .int _ => true
  | .float _ => true
  | _ => false

/-- The rational carried by a numeric raw value. -/
def numVal : PyValue → ℚ
  | .int n => (n : ℚ)
  | .float q => q
  | _ => 0

/-- A raw `crs` entry the bbox model accepts without falling over: absent,
explicit `null`, or a string. -/
def crsOk : Option PyValue → Bool
  | Option.none => true
  | Option.some .none => true
  | Option.some (.str _) => true
  | _ => false

/-- The `crs` the bbox model stores for such an entry: the CRS84 default
when absent, `None` for `null`, the string itself otherwise. -/
def crsVal : Option PyValue → Option String
  | Option.none => Option.some crs84
  | Option.some .none => Option.none
  | Option.some (.str s) => Option.some s
  | _ => Option.none

/-- Spine-only induction for `PyList` (the mutual recursor has several
motives; this is the one-motive specialisation that never descends into the
element values). -/
theorem pyList_induction {motive : PyList → Prop}
    (nil : motive .nil)
    (cons : ∀ hd tl, motive tl → motive (.cons hd tl)) :
    ∀ xs, motive xs
  | .nil => nil
  | .cons hd tl => cons hd tl (pyList_induction nil cons tl)

/-- Numeric list elements all pass the float validator, each to its
rational value. -/
theorem validateListElems_float_numeric :
    ∀ (xs : PyList), (∀ v ∈ xs.toList, isNumeric v = true) →
      validateListElems floatValidator xs = Option.some (xs.toList.map numVal) := by
  intro xs
  induction xs using pyList_induction with
  | nil => intro _; rfl
  | cons hd tl ih =>
    intro h
    have hhd := h hd (by simp [PyList.toList])
    have htl := ih (fun v hv => h v (by simp [PyList.toList, hv]))
    cases hd <;> simp [isNumeric] at hhd <;>
      simp [validateListElems, floatValidator, htl, PyList.toList, numVal]

/-- A dict whose `bbox` is a 4-element numeric list and whose `crs` (if
present) is null or a string validates as an `ExecutionInputBBox`. -/
theorem parseExecutionInputBBox_ok {kvs : PyDict} {xs : PyList}
    (h1 : kvs.lookup "bbox" = Option.some (.list xs))
    (h2 : xs.toList.length = 4)
    (h3 : ∀ v ∈ xs.toList, isNumeric v = true)
    (h4 : crsOk (kvs.lookup "crs") = true) :
    parseExecutionInputBBox kvs
      = Except.ok ⟨xs.toList.map numVal, crsVal (kvs.lookup "crs")⟩ := by
  have hb : parseReqField bboxListValidator "bbox" kvs
      = Except.ok (xs.toList.map numVal) := by
    unfold parseReqField
    rw [h1]
    dsimp only
    unfold bboxListValidator listValidator
    dsimp only
    rw [validateListElems_float_numeric xs h3]
    simp [liftV, h2]
  unfold parseExecutionInputBBox
  rw [hb]
  cases hc : kvs.lookup "crs" with
  | none => simp [hc, crsVal, Bind.bind, Except.bind, Pure.pure, Except.pure]
  | some v =>
    rw [hc] at h4
    cases v <;> simp [crsOk] at h4 <;>
      simp [hc, crsVal, liftV, strValidator, Bind.bind, Except.bind, Except.map,
        Pure.pure, Except.pure]

/-- C1 counterexample: `{"bbox": [0, 0, 1, 1], "crs": {}}` is a JSON
object whose `bbox` is a 4-element numeric sequence, yet resolution fails
outright (the dict-valued `crs` fails string coercion, the bbox model
rejects the document, and no later union member matches) — the resolver
does not return the BBox variant for *every* such object. -/
theorem bboxObject_crs_object_fails :
    (resolveExecutionInputValue (.dict (.cons "bbox"
      (.list (.cons (.int 0) (.cons (.int 0) (.cons (.int 1) (.cons (.int 1) .nil)))))
      (.cons "crs" (.dict .nil) .nil)))).isOk = false := by rfl

/-- C1 (amended): every JSON object carrying a `bbox` key with a 4-element
numeric sequence — and whose `crs` key, when present, is null or a string —
resolves to the BBox variant (crs defaulting to CRS84 when absent, `None`
when null), never to the QualifiedValue or generic-object interpretation,
even though such an object also satisfies the generic-object shape. -/
theorem bboxObject_resolves_to_bbox {kvs : PyDict} {xs : PyList}
    (h1 : kvs.lookup "bbox" = Option.some (.list xs))
    (h2 : xs.toList.length = 4)
    (h3 : ∀ v ∈ xs.toList, isNumeric v = true)
    (h4 : crsOk (kvs.lookup "crs") = true) :
    resolveExecutionInputValue (.dict kvs)
      = Except.ok (.noObject (.bbox
          ⟨xs.toList.map numVal, crsVal (kvs.lookup "crs")⟩)) := by
  unfold resolveExecutionInputValue resolveExecutionInputValueFuel
    parseExecutionInputValueNoObjectFuel
  dsimp only
  rw [parseExecutionInputBBox_ok h1 h2 h3 h4]
  rfl

/-- C1 witness: the spec's own bbox scenario resolves to the BBox variant
with the CRS84 default. -/
theorem bboxObject_resolves_to_bbox_witness :
    resolveExecutionInputValue (.dict (.cons "bbox"
      (.list (.cons (.int 0) (.cons (.int 0) (.cons (.int 1) (.cons (.int 1) .nil))))) .nil))
      = Except.ok (.noObject (.bbox ⟨[0, 0, 1, 1], Option.some crs84⟩)) :=
  @bboxObject_resolves_to_bbox
    (PyDict.cons "bbox"
      (PyValue.list (PyList.cons (PyValue.int 0) (PyList.cons (PyValue.int 0)
        (PyList.cons (PyValue.int 1) (PyList.cons (PyValue.int 1) PyList.nil)))))
      PyDict.nil)
    (PyList.cons (PyValue.int 0) (PyList.cons (PyValue.int 0)
      (PyList.cons (PyValue.int 1) (PyList.cons (PyValue.int 1) PyList.nil))))
    (by rfl) (by rfl) (by decide) (by rfl)

/-! ## Canonical schema documents and the round-trip (C4)

pydantic v1's coercing validators rewrite raw values (`{"title": 5}` is
stored — and re-serialised — as `"5"`), and the `Json[dict]` fields
`default`/`example` replace a raw JSON string by its decoded object, so
the round-trip can only hold for documents whose values already have their
field's exact target type.  `canonicalSchemaDoc` captures that class. -/

/-- Canonical raw value of an `Optional[str]` field: `null` or a string. -/
def canonOptStr : PyValue → Bool
  | .none => true
  | .str _ => true
  | _ => false

/-- Canonical raw value of an `Optional[float]` field. -/
def canonOptFloat : PyValue → Bool
  | .none => true
  | .float _ => true
  | _ => false

/-- Canonical raw value of a defaulted `bool` field. -/
def canonBool : PyValue → Bool
  | .bool _ => true
  | _ => false

/-- Canonical raw value of a defaulted `int`-`ge=0` field. -/
def canonNat : PyValue → Bool
  | .int n => decide (0 ≤ n)
  | _ => false

/-- Canonical raw value of an `Optional[int]`-`ge=0` field. -/
def canonOptNat : PyValue → Bool
  | .none => true
  | .int n => decide (0 ≤ n)
  | _ => false

/-- The strings of a raw list whose elements are all strings. -/
def pyListStrings : PyList → Option (List String)
  | .nil => Option.some []
  | .cons (.str s) tl => (pyListStrings tl).map (fun ss => s :: ss)
  | _ => Option.none

/-- Canonical raw value of the `required` field: `null`, or a non-empty
duplicate-free list of strings. -/
def canonRequired : PyValue → Bool
  | .none => true
  | .list xs =>
    match pyListStrings xs with
    | Option.some ss => decide (1 ≤ ss.length) && decide ss.Nodup
    | Option.none => false
  | _ => false

/-- Canonical raw value of the `enum` field: `null` or a non-empty list. -/
def canonEnum : PyValue → Bool
  | .none => true
  | .list xs => decide (1 ≤ xs.toList.length)
  | _ => false

/-- Canonical raw value of the `type` field. -/
def canonType : PyValue → Bool
  | .none => true
  | .str s => decide (s ∈ processIOTypeValues)
  | _ => false

/-- Canonical raw value of the `format` field. -/
def canonFormat : PyValue → Bool
  | .none => true
  | .str s => decide (s ∈ processIOFormatValues)
  | _ => false

mutual
/-- Every entry of the dict is a canonical schema field. -/
def canonicalEntries : PyDict → Bool
  | .nil => true
  | .cons k v tl => canonicalField k v && canonicalEntries tl

/-- A canonical raw value for the schema field keyed `k`: the value already
has the field's exact target type (so pydantic stores it unchanged), with
nested subschemas recursively canonical; the `Json[dict]` fields `default`
and `example` (whose decoding is intrinsically not value-preserving) and
unknown keys (which pydantic silently drops) are excluded. -/
def canonicalField (k : String) (v : PyValue) : Bool :=
  if k ∈ (["title", "pattern", "description", "contentMediaType",
      "contentEncoding", "contentSchema"] : List String) then canonOptStr v
  else if k ∈ (["multipleOf", "maximum", "minimum"] : List String) then
    canonOptFloat v
  else if k ∈ (["exclusiveMaximum", "exclusiveMinimum", "uniqueItems",
      "nullable", "readOnly", "writeOnly", "deprecated"] : List String) then
    canonBool v
  else if k ∈ (["maxLength", "maxItems", "maxProperties"] : List String) then
    canonOptNat v
  else if k ∈ (["minLength", "minItems", "minProperties"] : List String) then
    canonNat v
  else if k = "required" then canonRequired v
  else if k = "enum" then canonEnum v
  else if k = "type" then canonType v
  else if k = "format" then canonFormat v
  else if k = "not" ∨ k = "properties" then
    match v with
    | .none => true
    | .dict kvs => canonicalEntries kvs && decide kvs.keys.Nodup
    | _ => false
  else if k ∈ (["allOf", "oneOf", "anyOf", "items"] : List String) then
    match v with
    | .none => true
    | .list xs => canonicalDocList xs
    | _ => false
  else if k = "additionalProperties" then
    match v with
    | .bool _ => true
    | .dict kvs => canonicalEntries kvs && decide kvs.keys.Nodup
    | _ => false
  else false

/-- Every element is a canonical subschema document. -/
def canonicalDocList : PyList → Bool
  | .nil => true
  | .cons hd tl =>
    (match hd with
     | .dict kvs => canonicalEntries kvs && decide kvs.keys.Nodup
     | _ => false) && canonicalDocList tl
end

/-- A canonical raw schema document: a dict without duplicate keys whose
every entry is a canonical schema field. -/
def canonicalSchemaDoc : PyValue → Bool
  | .dict kvs => canonicalEntries kvs && decide kvs.keys.Nodup
  | _ => false

/-- First-wins lookup in a serialised association list (its keys are
pairwise distinct, so the direction is immaterial). -/
def lookupL (k : String) : List (String × PyValue) → Option PyValue
  | [] => Option.none
  | (k', v) :: tl => if k' = k then Option.some v else lookupL k tl

/-- Structural equality of Python values up to the order of dict keys:
scalars and identical values are equivalent, lists are equivalent
pointwise, and dicts are equivalent when their lookups agree up to the same
relation.  This is the "structurally equal under alias mapping" of the
round-trip claim — serialisation emits fields in declaration order, so
nested objects are recovered as equal key/value maps, not as
identically-ordered sequences. -/
inductive ValEquiv : PyValue → PyValue → Prop where
  | refl (v : PyValue) : ValEquiv v v
  | dict (a b : PyDict)
      (hnone : ∀ k, a.lookup k = Option.none ↔ b.lookup k = Option.none)
      (hsome : ∀ k va vb, a.lookup k = Option.some va →
        b.lookup k = Option.some vb → ValEquiv va vb) :
      ValEquiv (.dict a) (.dict b)
  | list (xs ys : PyList) (h : List.Forall₂ ValEquiv xs.toList ys.toList) :
      ValEquiv (.list xs) (.list ys)

/-- Spine-only induction for `PyDict`. -/
theorem pyDict_induction {motive : PyDict → Prop}
    (nil : motive .nil)
    (cons : ∀ k v tl, motive tl → motive (.cons k v tl)) :
    ∀ kvs, motive kvs
  | .nil => nil
  | .cons k v tl => cons k v tl (pyDict_induction nil cons tl)

/-- Every Python value has positive structural size. -/
theorem pyValue_size_pos (v : PyValue) : 1 ≤ v.size := by
  cases v <;> simp [PyValue.size]

/-- Every dict spine has positive structural size. -/
theorem pyDict_size_pos (kvs : PyDict) : 1 ≤ kvs.size := by
  cases kvs <;> simp [PyDict.size]

/-- Every list spine has positive structural size. -/
theorem pyList_size_pos (xs : PyList) : 1 ≤ xs.size := by
  cases xs <;> simp [PyList.size]

/-- A value found by lookup is structurally smaller than the dict spine. -/
theorem PyDict.lookup_size :
    ∀ (kvs : PyDict) (k : String) (v : PyValue),
      kvs.lookup k = Option.some v → v.size < kvs.size := by
  intro kvs
  induction kvs using pyDict_induction with
  | nil => intro k v h; simp [PyDict.lookup] at h
  | cons k0 v0 tl ih =>
    intro k v h
    unfold PyDict.lookup at h
    cases htl : tl.lookup k with
    | some r =>
      rw [htl] at h
      have hrv : r = v := Option.some.inj h
      subst hrv
      have h1 := ih k r htl
      have h2 := pyValue_size_pos v0
      simp [PyDict.size]
      omega
    | none =>
      rw [htl] at h
      by_cases hk : k0 = k
      · rw [if_pos hk] at h
        obtain rfl := Option.some.inj h
        have h2 := pyDict_size_pos tl
        simp [PyDict.size]
        omega
      · rw [if_neg hk] at h
        simp at h

/-- A list element is structurally smaller than the list spine. -/
theorem PyList.mem_toList_size :
    ∀ (xs : PyList) (v : PyValue), v ∈ xs.toList → v.size < xs.size := by
  intro xs
  induction xs using pyList_induction with
  | nil => intro v h; simp [PyList.toList] at h
  | cons hd tl ih =>
    intro v h
    rw [PyList.toList] at h
    rcases List.mem_cons.mp h with rfl | h
    · have h2 := pyList_size_pos tl
      simp [PyList.size]
      omega
    · have h1 := ih v h
      have h2 := pyValue_size_pos hd
      simp [PyList.size]
      omega

/-- One step of field emission. -/
theorem emitFields_cons (g : String → PyValue) (fs : List String)
    (a : String) (as : List String) :
    emitFields g fs (a :: as)
      = (if a ∈ fs then [(a, g a)] else []) ++ emitFields g fs as := by
  by_cases hf : a ∈ fs <;> simp [emitFields, List.filterMap_cons, hf]

/-- Lookup in an emitted field list: the render of `k` exactly when `k` is
listed and set. -/
theorem lookupL_emitFields (g : String → PyValue) (fs : List String)
    (k : String) :
    ∀ (as : List String),
      lookupL k (emitFields g fs as)
        = if k ∈ as ∧ k ∈ fs then Option.some (g k) else Option.none := by
  intro as
  induction as with
  | nil => simp [emitFields, lookupL]
  | cons a as ih =>
    rw [emitFields_cons]
    by_cases hf : a ∈ fs
    · rw [if_pos hf]
      by_cases hk : a = k
      · subst hk
        simp [lookupL, hf]
      · have hk' : ¬ k = a := fun h => hk h.symm
        rw [List.singleton_append]
        show (if a = k then Option.some (g a) else lookupL k (emitFields g fs as)) = _
        rw [if_neg hk, ih]
        simp [List.mem_cons, hk']
    · rw [if_neg hf]
      simp only [List.nil_append, ih]
      by_cases hk : k = a
      · subst hk
        simp [hf]
      · simp [List.mem_cons, hk]

/-- Emitted keys come from the listed aliases. -/
theorem mem_emitFields_keys (g : String → PyValue) (fs : List String)
    {k : String} :
    ∀ {as : List String}, k ∈ (emitFields g fs as).map Prod.fst → k ∈ as := by
  intro as
  induction as with
  | nil => intro h; simp [emitFields] at h
  | cons a as ih =>
    intro h
    rw [emitFields_cons] at h
    by_cases hf : a ∈ fs
    · rw [if_pos hf] at h
      simp only [List.singleton_append, List.map_cons, List.mem_cons] at h
      rcases h with rfl | h
      · exact List.mem_cons_self _ _
      · exact List.mem_cons_of_mem _ (ih h)
    · rw [if_neg hf] at h
      exact List.mem_cons_of_mem _ (ih h)

/-- Emission over duplicate-free aliases yields duplicate-free keys. -/
theorem emitFields_keys_nodup (g : String → PyValue) (fs : List String) :
    ∀ (as : List String), as.Nodup → ((emitFields g fs as).map Prod.fst).Nodup := by
  intro as
  induction as with
  | nil => intro _; simp [emitFields]
  | cons a as ih =>
    intro hnd
    rw [List.nodup_cons] at hnd
    rw [emitFields_cons]
    by_cases hf : a ∈ fs
    · rw [if_pos hf]
      simp only [List.singleton_append, List.map_cons, List.nodup_cons]
      exact ⟨fun h => hnd.1 (mem_emitFields_keys g fs h), ih hnd.2⟩
    · rw [if_neg hf]
      exact ih hnd.2

/-- A key absent from the key column is not found. -/
theorem lookupL_eq_none {k : String} :
    ∀ {out : List (String × PyValue)}, k ∉ out.map Prod.fst →
      lookupL k out = Option.none := by
  intro out
  induction out with
  | nil => intro _; rfl
  | cons p tl ih =>
    intro h
    simp only [List.map_cons, List.mem_cons] at h
    push_neg at h
    unfold lookupL
    rw [if_neg (fun he => h.1 he.symm)]
    exact ih h.2

/-- On key-distinct association lists, last-wins dict lookup agrees with
first-wins list lookup. -/
theorem pyDictOfList_lookup :
    ∀ (out : List (String × PyValue)), (out.map Prod.fst).Nodup →
      ∀ k, (pyDictOfList out).lookup k = lookupL k out := by
  intro out
  induction out with
  | nil => intro _ k; rfl
  | cons p tl ih =>
    intro hnd k
    obtain ⟨k0, v⟩ := p
    simp only [List.map_cons, List.nodup_cons] at hnd
    unfold pyDictOfList PyDict.lookup lookupL
    rw [ih hnd.2 k]
    by_cases hk : k0 = k
    · subst hk
      rw [lookupL_eq_none hnd.1]
    · cases hl : lookupL k tl <;> simp [hk]


/-- Membership in the recorded field set. -/
theorem mem_schemaFieldsSet {k : String} {kvs : PyDict} :
    k ∈ schemaFieldsSet kvs
      ↔ k ∈ processIOSchemaAliases ∧ (kvs.lookup k).isSome := by
  unfold schemaFieldsSet
  rw [List.mem_filter]

/-- Every looked-up entry of a canonical-entry dict is a canonical field. -/
theorem canonicalEntries_lookup :
    ∀ (kvs : PyDict), canonicalEntries kvs = true →
      ∀ k v, kvs.lookup k = Option.some v → canonicalField k v = true := by
  intro kvs
  induction kvs using pyDict_induction with
  | nil => intro _ k v h; simp [PyDict.lookup] at h
  | cons k' v' tl ih =>
    intro hc k v h
    rw [canonicalEntries] at hc
    rw [Bool.and_eq_true] at hc
    unfold PyDict.lookup at h
    cases htl : tl.lookup k with
    | some r =>
      rw [htl] at h
      have hrv : r = v := Option.some.inj h
      subst hrv
      exact ih hc.2 k r htl
    | none =>
      rw [htl] at h
      by_cases hk : k' = k
      · rw [if_pos hk] at h
        obtain rfl := Option.some.inj h
        exact hk ▸ hc.1
      · rw [if_neg hk] at h
        simp at h

/-- A canonical field key is a known alias. -/
theorem canonicalField_eq (k : String) (v : PyValue) :
    canonicalField k v =
      (if k ∈ (["title", "pattern", "description", "contentMediaType",
          "contentEncoding", "contentSchema"] : List String) then canonOptStr v
      else if k ∈ (["multipleOf", "maximum", "minimum"] : List String) then
        canonOptFloat v
      else if k ∈ (["exclusiveMaximum", "exclusiveMinimum", "uniqueItems",
          "nullable", "readOnly", "writeOnly", "deprecated"] : List String) then
        canonBool v
      else if k ∈ (["maxLength", "maxItems", "maxProperties"] : List String) then
        canonOptNat v
      else if k ∈ (["minLength", "minItems", "minProperties"] : List String) then
        canonNat v
      else if k = "required" then canonRequired v
      else if k = "enum" then canonEnum v
      else if k = "type" then canonType v
      else if k = "format" then canonFormat v
      else if k = "not" ∨ k = "properties" then
        match v with
        | .none => true
        | .dict kvs => canonicalEntries kvs && decide kvs.keys.Nodup
        | _ => false
      else if k ∈ (["allOf", "oneOf", "anyOf", "items"] : List String) then
        match v with
        | .none => true
        | .list xs => canonicalDocList xs
        | _ => false
      else if k = "additionalProperties" then
        match v with
        | .bool _ => true
        | .dict kvs => canonicalEntries kvs && decide kvs.keys.Nodup
        | _ => false
      else false) := by
  cases v <;> rfl

theorem canonicalField_mem {k : String} {v : PyValue}
    (h : canonicalField k v = true) : k ∈ processIOSchemaAliases := by
  by_contra hk
  have s1 : (["title", "pattern", "description", "contentMediaType",
      "contentEncoding", "contentSchema"] : List String) ⊆ processIOSchemaAliases := by
    decide
  have s2 : (["multipleOf", "maximum", "minimum"] : List String)
      ⊆ processIOSchemaAliases := by decide
  have s3 : (["exclusiveMaximum", "exclusiveMinimum", "uniqueItems", "nullable",
      "readOnly", "writeOnly", "deprecated"] : List String)
      ⊆ processIOSchemaAliases := by decide
  have s4 : (["maxLength", "maxItems", "maxProperties"] : List String)
      ⊆ processIOSchemaAliases := by decide
  have s5 : (["minLength", "minItems", "minProperties"] : List String)
      ⊆ processIOSchemaAliases := by decide
  have s11 : (["allOf", "oneOf", "anyOf", "items"] : List String)
      ⊆ processIOSchemaAliases := by decide
  rw [canonicalField_eq] at h
  rw [if_neg (fun hm => hk (s1 hm)), if_neg (fun hm => hk (s2 hm)),
    if_neg (fun hm => hk (s3 hm)), if_neg (fun hm => hk (s4 hm)),
    if_neg (fun hm => hk (s5 hm)),
    if_neg (fun hm : k = "required" => hk (by rw [hm]; decide)),
    if_neg (fun hm : k = "enum" => hk (by rw [hm]; decide)),
    if_neg (fun hm : k = "type" => hk (by rw [hm]; decide)),
    if_neg (fun hm : k = "format" => hk (by rw [hm]; decide)),
    if_neg (fun hm : k = "not" ∨ k = "properties" => hk (by
      rcases hm with hm | hm <;> rw [hm] <;> decide)),
    if_neg (fun hm => hk (s11 hm)),
    if_neg (fun hm : k = "additionalProperties" => hk (by rw [hm]; decide))] at h
  simp at h


/-- A key whose canonical-field predicate is constantly false (the
`Json[dict]` fields `default`/`example` and unknown keys) is absent from a
canonical-entry dict. -/
theorem canonical_absent {kvs : PyDict} (hc : canonicalEntries kvs = true)
    (a : String) (ha : ∀ v, canonicalField a v = false) :
    kvs.lookup a = Option.none := by
  cases hl : kvs.lookup a with
  | none => rfl
  | some v =>
    have h := canonicalEntries_lookup kvs hc a v hl
    rw [ha] at h
    exact Bool.noConfusion h

/-- A raw list of strings validates elementwise under `str_validator` to
exactly those strings. -/
theorem validateListElems_strs :
    ∀ (xs : PyList) (ss : List String), pyListStrings xs = Option.some ss →
      validateListElems strValidator xs = Option.some ss := by
  intro xs
  induction xs using pyList_induction with
  | nil =>
    intro ss h
    have hss : ([] : List String) = ss := Option.some.inj h
    rw [← hss]
    rfl
  | cons hd tl ih =>
    intro ss h
    cases hd with
    | str s =>
      cases hps : pyListStrings tl with
      | none =>
        rw [pyListStrings, hps] at h
        exact Option.noConfusion h
      | some ss2 =>
        rw [pyListStrings, hps] at h
        have hss : s :: ss2 = ss := Option.some.inj h
        rw [← hss]
        rw [validateListElems, ih ss2 hps]
        rfl
    | none => exact Option.noConfusion h
    | bool b => exact Option.noConfusion h
    | int n => exact Option.noConfusion h
    | float q => exact Option.noConfusion h
    | list ys => exact Option.noConfusion h
    | dict d => exact Option.noConfusion h

/-- A raw list of strings is recovered from its extracted strings. -/
theorem pyListStrings_render :
    ∀ (xs : PyList) (ss : List String), pyListStrings xs = Option.some ss →
      pyListOfList (ss.map PyValue.str) = xs := by
  intro xs
  induction xs using pyList_induction with
  | nil =>
    intro ss h
    have hss : ([] : List String) = ss := Option.some.inj h
    rw [← hss]
    rfl
  | cons hd tl ih =>
    intro ss h
    cases hd with
    | str s =>
      cases hps : pyListStrings tl with
      | none =>
        rw [pyListStrings, hps] at h
        exact Option.noConfusion h
      | some ss2 =>
        rw [pyListStrings, hps] at h
        have hss : s :: ss2 = ss := Option.some.inj h
        rw [← hss]
        rw [List.map_cons, pyListOfList, ih ss2 hps]
    | none => exact Option.noConfusion h
    | bool b => exact Option.noConfusion h
    | int n => exact Option.noConfusion h
    | float q => exact Option.noConfusion h
    | list ys => exact Option.noConfusion h
    | dict d => exact Option.noConfusion h

/-- `pyListOfList` inverts `PyList.toList`. -/
theorem pyListOfList_toList : ∀ xs : PyList, pyListOfList xs.toList = xs := by
  intro xs
  induction xs using pyList_induction with
  | nil => rfl
  | cons hd tl ih => rw [PyList.toList, pyListOfList, ih]


/-- Canonical round-trip of one `Optional[str]` field. -/
theorem rt_optStr (kvs : PyDict) (hc : canonicalEntries kvs = true)
    (a : String) (ha : ∀ v, canonicalField a v = canonOptStr v) :
    ∃ x, parseOptField strValidator a kvs = Except.ok x
      ∧ ∀ v, kvs.lookup a = Option.some v → ValEquiv (renderOptStr x) v := by
  cases hl : kvs.lookup a with
  | none =>
    exact ⟨Option.none, parseOptField_absent _ _ _ hl,
      fun v hv => Option.noConfusion hv⟩
  | some v =>
    have hcf := canonicalEntries_lookup kvs hc a v hl
    rw [ha] at hcf
    cases v with
    | none =>
      refine ⟨Option.none, ?_, ?_⟩
      · unfold parseOptField
        rw [hl]
      · intro w hw
        rw [← Option.some.inj hw]
        exact ValEquiv.refl _
    | str s =>
      refine ⟨Option.some s, ?_, ?_⟩
      · unfold parseOptField
        rw [hl]
        rfl
      · intro w hw
        rw [← Option.some.inj hw]
        exact ValEquiv.refl _
    | bool b => exact Bool.noConfusion hcf
    | int n => exact Bool.noConfusion hcf
    | float q => exact Bool.noConfusion hcf
    | list ys => exact Bool.noConfusion hcf
    | dict d => exact Bool.noConfusion hcf

/-- Canonical round-trip of one `Optional[float]` field. -/
theorem rt_optFloat (kvs : PyDict) (hc : canonicalEntries kvs = true)
    (a : String) (ha : ∀ v, canonicalField a v = canonOptFloat v) :
    ∃ x, parseOptField floatValidator a kvs = Except.ok x
      ∧ ∀ v, kvs.lookup a = Option.some v → ValEquiv (renderOptFloat x) v := by
  cases hl : kvs.lookup a with
  | none =>
    exact ⟨Option.none, parseOptField_absent _ _ _ hl,
      fun v hv => Option.noConfusion hv⟩
  | some v =>
    have hcf := canonicalEntries_lookup kvs hc a v hl
    rw [ha] at hcf
    cases v with
    | none =>
      refine ⟨Option.none, ?_, ?_⟩
      · unfold parseOptField
        rw [hl]
      · intro w hw
        rw [← Option.some.inj hw]
        exact ValEquiv.refl _
    | float q =>
      refine ⟨Option.some q, ?_, ?_⟩
      · unfold parseOptField
        rw [hl]
        rfl
      · intro w hw
        rw [← Option.some.inj hw]
        exact ValEquiv.refl _
    | bool b => exact Bool.noConfusion hcf
    | int n => exact Bool.noConfusion hcf
    | str s => exact Bool.noConfusion hcf
    | list ys => exact Bool.noConfusion hcf
    | dict d => exact Bool.noConfusion hcf

/-- Canonical round-trip of one defaulted `bool` field. -/
theorem rt_bool (kvs : PyDict) (hc : canonicalEntries kvs = true)
    (a : String) (ha : ∀ v, canonicalField a v = canonBool v) :
    ∃ x, parseDefField boolValidator false a kvs = Except.ok x
      ∧ ∀ v, kvs.lookup a = Option.some v → ValEquiv (PyValue.bool x) v := by
  cases hl : kvs.lookup a with
  | none =>
    exact ⟨false, parseDefField_absent _ _ _ _ hl,
      fun v hv => Option.noConfusion hv⟩
  | some v =>
    have hcf := canonicalEntries_lookup kvs hc a v hl
    rw [ha] at hcf
    cases v with
    | bool b =>
      refine ⟨b, ?_, ?_⟩
      · unfold parseDefField
        rw [hl]
        rfl
      · intro w hw
        rw [← Option.some.inj hw]
        exact ValEquiv.refl _
    | none => exact Bool.noConfusion hcf
    | int n => exact Bool.noConfusion hcf
    | float q => exact Bool.noConfusion hcf
    | str s => exact Bool.noConfusion hcf
    | list ys => exact Bool.noConfusion hcf
    | dict d => exact Bool.noConfusion hcf

/-- Canonical round-trip of one `Optional[int]`-`ge=0` field. -/
theorem rt_optNat (kvs : PyDict) (hc : canonicalEntries kvs = true)
    (a : String) (ha : ∀ v, canonicalField a v = canonOptNat v) :
    ∃ x, parseOptField nonNegInt a kvs = Except.ok x
      ∧ ∀ v, kvs.lookup a = Option.some v → ValEquiv (renderOptInt x) v := by
  cases hl : kvs.lookup a with
  | none =>
    exact ⟨Option.none, parseOptField_absent _ _ _ hl,
      fun v hv => Option.noConfusion hv⟩
  | some v =>
    have hcf := canonicalEntries_lookup kvs hc a v hl
    rw [ha] at hcf
    cases v with
    | none =>
      refine ⟨Option.none, ?_, ?_⟩
      · unfold parseOptField
        rw [hl]
      · intro w hw
        rw [← Option.some.inj hw]
        exact ValEquiv.refl _
    | int n =>
      have h0 : 0 ≤ n := of_decide_eq_true hcf
      have hnn : nonNegInt (PyValue.int n) = Option.some n := by
        simp [nonNegInt, intValidator, h0]
      refine ⟨Option.some n, ?_, ?_⟩
      · unfold parseOptField
        rw [hl]
        show (liftV a (nonNegInt (PyValue.int n))).map Option.some
          = Except.ok (Option.some n)
        rw [hnn]
        rfl
      · intro w hw
        rw [← Option.some.inj hw]
        exact ValEquiv.refl _
    | bool b => exact Bool.noConfusion hcf
    | float q => exact Bool.noConfusion hcf
    | str s => exact Bool.noConfusion hcf
    | list ys => exact Bool.noConfusion hcf
    | dict d => exact Bool.noConfusion hcf

/-- Canonical round-trip of one defaulted `int`-`ge=0` field. -/
theorem rt_nat (kvs : PyDict) (hc : canonicalEntries kvs = true)
    (a : String) (ha : ∀ v, canonicalField a v = canonNat v) :
    ∃ x, parseDefField nonNegInt 0 a kvs = Except.ok x
      ∧ ∀ v, kvs.lookup a = Option.some v → ValEquiv (PyValue.int x) v := by
  cases hl : kvs.lookup a with
  | none =>
    exact ⟨0, parseDefField_absent _ _ _ _ hl,
      fun v hv => Option.noConfusion hv⟩
  | some v =>
    have hcf := canonicalEntries_lookup kvs hc a v hl
    rw [ha] at hcf
    cases v with
    | int n =>
      have h0 : 0 ≤ n := of_decide_eq_true hcf
      have hnn : nonNegInt (PyValue.int n) = Option.some n := by
        simp [nonNegInt, intValidator, h0]
      refine ⟨n, ?_, ?_⟩
      · unfold parseDefField
        rw [hl]
        show liftV a (nonNegInt (PyValue.int n)) = Except.ok n
        rw [hnn]
        rfl
      · intro w hw
        rw [← Option.some.inj hw]
        exact ValEquiv.refl _
    | none => exact Bool.noConfusion hcf
    | bool b => exact Bool.noConfusion hcf
    | float q => exact Bool.noConfusion hcf
    | str s => exact Bool.noConfusion hcf
    | list ys => exact Bool.noConfusion hcf
    | dict d => exact Bool.noConfusion hcf

/-- Canonical round-trip of an `Enum`-typed optional string field. -/
theorem rt_enumStr (vals : List String) (kvs : PyDict)
    (hc : canonicalEntries kvs = true) (a : String)
    (ha : ∀ v, canonicalField a v
      = (match v with
         | PyValue.none => true
         | PyValue.str s => decide (s ∈ vals)
         | _ => false)) :
    ∃ x, parseOptField (enumStrValidator vals) a kvs = Except.ok x
      ∧ ∀ v, kvs.lookup a = Option.some v → ValEquiv (renderOptStr x) v := by
  cases hl : kvs.lookup a with
  | none =>
    exact ⟨Option.none, parseOptField_absent _ _ _ hl,
      fun v hv => Option.noConfusion hv⟩
  | some v =>
    have hcf := canonicalEntries_lookup kvs hc a v hl
    rw [ha] at hcf
    cases v with
    | none =>
      refine ⟨Option.none, ?_, ?_⟩
      · unfold parseOptField
        rw [hl]
      · intro w hw
        rw [← Option.some.inj hw]
        exact ValEquiv.refl _
    | str s =>
      have hm : s ∈ vals := of_decide_eq_true hcf
      have hval : enumStrValidator vals (PyValue.str s) = Option.some s := by
        simp [enumStrValidator, hm]
      refine ⟨Option.some s, ?_, ?_⟩
      · unfold parseOptField
        rw [hl]
        show (liftV a (enumStrValidator vals (PyValue.str s))).map Option.some
          = Except.ok (Option.some s)
        rw [hval]
        rfl
      · intro w hw
        rw [← Option.some.inj hw]
        exact ValEquiv.refl _
    | bool b => exact Bool.noConfusion hcf
    | int n => exact Bool.noConfusion hcf
    | float q => exact Bool.noConfusion hcf
    | list ys => exact Bool.noConfusion hcf
    | dict d => exact Bool.noConfusion hcf

/-- Canonical round-trip of the `required` field. -/
theorem rt_required (kvs : PyDict) (hc : canonicalEntries kvs = true) :
    ∃ x, parseOptField conlistStrUnique "required" kvs = Except.ok x
      ∧ ∀ v, kvs.lookup "required" = Option.some v
          → ValEquiv (renderOptStrList x) v := by
  have ha : ∀ v, canonicalField "required" v = canonRequired v :=
    fun v => by cases v <;> rfl
  cases hl : kvs.lookup "required" with
  | none =>
    exact ⟨Option.none, parseOptField_absent _ _ _ hl,
      fun v hv => Option.noConfusion hv⟩
  | some v =>
    have hcf := canonicalEntries_lookup kvs hc _ v hl
    rw [ha] at hcf
    cases v with
    | none =>
      refine ⟨Option.none, ?_, ?_⟩
      · unfold parseOptField
        rw [hl]
      · intro w hw
        rw [← Option.some.inj hw]
        exact ValEquiv.refl _
    | list xs =>
      cases hps : pyListStrings xs with
      | none =>
        rw [show canonRequired (PyValue.list xs)
            = (match pyListStrings xs with
               | Option.some ss => decide (1 ≤ ss.length) && decide ss.Nodup
               | Option.none => false) from rfl, hps] at hcf
        exact Bool.noConfusion hcf
      | some ss =>
        rw [show canonRequired (PyValue.list xs)
            = (match pyListStrings xs with
               | Option.some ss => decide (1 ≤ ss.length) && decide ss.Nodup
               | Option.none => false) from rfl, hps] at hcf
        simp only [Bool.and_eq_true, decide_eq_true_eq] at hcf
        have hval : conlistStrUnique (PyValue.list xs) = Option.some ss := by
          unfold conlistStrUnique
          rw [show listValidator strValidator (PyValue.list xs)
              = validateListElems strValidator xs from rfl]
          rw [validateListElems_strs xs ss hps]
          show (if ss.length ≥ 1 ∧ ss.Nodup then Option.some ss else Option.none)
            = Option.some ss
          rw [if_pos ⟨hcf.1, hcf.2⟩]
        refine ⟨Option.some ss, ?_, ?_⟩
        · unfold parseOptField
          rw [hl]
          show (liftV "required" (conlistStrUnique (PyValue.list xs))).map Option.some
            = Except.ok (Option.some ss)
          rw [hval]
          rfl
        · intro w hw
          rw [← Option.some.inj hw]
          show ValEquiv (PyValue.list (pyListOfList (List.map PyValue.str ss)))
            (PyValue.list xs)
          rw [pyListStrings_render xs ss hps]
          exact ValEquiv.refl _
    | bool b => exact Bool.noConfusion hcf
    | int n => exact Bool.noConfusion hcf
    | float q => exact Bool.noConfusion hcf
    | str s => exact Bool.noConfusion hcf
    | dict d => exact Bool.noConfusion hcf

/-- Canonical round-trip of the `enum` field. -/
theorem rt_enum (kvs : PyDict) (hc : canonicalEntries kvs = true) :
    ∃ x, parseOptField conlistAny "enum" kvs = Except.ok x
      ∧ ∀ v, kvs.lookup "enum" = Option.some v
          → ValEquiv (renderOptAnyList x) v := by
  have ha : ∀ v, canonicalField "enum" v = canonEnum v :=
    fun v => by cases v <;> rfl
  cases hl : kvs.lookup "enum" with
  | none =>
    exact ⟨Option.none, parseOptField_absent _ _ _ hl,
      fun v hv => Option.noConfusion hv⟩
  | some v =>
    have hcf := canonicalEntries_lookup kvs hc _ v hl
    rw [ha] at hcf
    cases v with
    | none =>
      refine ⟨Option.none, ?_, ?_⟩
      · unfold parseOptField
        rw [hl]
      · intro w hw
        rw [← Option.some.inj hw]
        exact ValEquiv.refl _
    | list xs =>
      have hlen : 1 ≤ xs.toList.length := of_decide_eq_true hcf
      have hval : conlistAny (PyValue.list xs) = Option.some xs.toList := by
        unfold conlistAny
        show (if xs.toList.length ≥ 1 then Option.some xs.toList else Option.none)
          = Option.some xs.toList
        rw [if_pos hlen]
      refine ⟨Option.some xs.toList, ?_, ?_⟩
      · unfold parseOptField
        rw [hl]
        show (liftV "enum" (conlistAny (PyValue.list xs))).map Option.some
          = Except.ok (Option.some xs.toList)
        rw [hval]
        rfl
      · intro w hw
        rw [← Option.some.inj hw]
        show ValEquiv (PyValue.list (pyListOfList xs.toList)) (PyValue.list xs)
        rw [pyListOfList_toList]
        exact ValEquiv.refl _
    | bool b => exact Bool.noConfusion hcf
    | int n => exact Bool.noConfusion hcf
    | float q => exact Bool.noConfusion hcf
    | str s => exact Bool.noConfusion hcf
    | dict d => exact Bool.noConfusion hcf


/-- Canonical round-trip of an `Optional["ProcessIOSchema"]` field, given
the round-trip of the sub-parser on structurally smaller documents. -/
theorem rt_optSchemaWith (p : PyValue → V SchemaNode) (kvs : PyDict)
    (hc : canonicalEntries kvs = true) (a : String)
    (ha : ∀ v, canonicalField a v
      = (match v with
         | PyValue.none => true
         | PyValue.dict kvs2 => canonicalEntries kvs2 && decide kvs2.keys.Nodup
         | _ => false))
    (hp : ∀ w, w.size < kvs.size → canonicalSchemaDoc w = true →
      ∃ n, p w = Except.ok n
        ∧ ValEquiv (PyValue.dict (pyDictOfList (serializeSchemaNode n))) w) :
    ∃ x, parseOptSchemaWith p a kvs = Except.ok x
      ∧ ∀ v, kvs.lookup a = Option.some v → ValEquiv (serializeOptSchema x) v := by
  cases hl : kvs.lookup a with
  | none =>
    refine ⟨OptSchemaNode.none, ?_, fun v hv => Option.noConfusion hv⟩
    unfold parseOptSchemaWith
    rw [hl]
  | some v =>
    have hcf := canonicalEntries_lookup kvs hc a v hl
    rw [ha] at hcf
    cases v with
    | none =>
      refine ⟨OptSchemaNode.none, ?_, ?_⟩
      · unfold parseOptSchemaWith
        rw [hl]
      · intro w hw
        rw [← Option.some.inj hw]
        exact ValEquiv.refl _
    | dict kvs2 =>
      have hsz := PyDict.lookup_size kvs a _ hl
      obtain ⟨n, hn, hv⟩ := hp (PyValue.dict kvs2) hsz hcf
      refine ⟨OptSchemaNode.some n, ?_, ?_⟩
      · unfold parseOptSchemaWith
        rw [hl]
        show (p (PyValue.dict kvs2)).map OptSchemaNode.some
          = Except.ok (OptSchemaNode.some n)
        rw [hn]
        rfl
      · intro w hw
        rw [← Option.some.inj hw]
        exact hv
    | bool b => exact Bool.noConfusion hcf
    | int n => exact Bool.noConfusion hcf
    | float q => exact Bool.noConfusion hcf
    | str s => exact Bool.noConfusion hcf
    | list ys => exact Bool.noConfusion hcf

/-- Canonical round-trip of the elements of a subschema list. -/
theorem rt_schemaElems (p : PyValue → V SchemaNode) (B : Nat) :
    ∀ (xs : PyList), canonicalDocList xs = true → xs.size ≤ B →
      (∀ w, w.size < B → canonicalSchemaDoc w = true →
        ∃ n, p w = Except.ok n
          ∧ ValEquiv (PyValue.dict (pyDictOfList (serializeSchemaNode n))) w) →
      ∃ l, parseSchemaElemsWith p xs = Except.ok l
        ∧ List.Forall₂ ValEquiv (serializeSchemaListVals l).toList xs.toList := by
  intro xs
  induction xs using pyList_induction with
  | nil =>
    intro _ _ _
    exact ⟨SchemaList.nil, rfl, List.Forall₂.nil⟩
  | cons hd tl ih =>
    intro hcl hsz hp
    cases hd with
    | dict kvs2 =>
      have hcl2 : ((canonicalEntries kvs2 && decide kvs2.keys.Nodup)
          && canonicalDocList tl) = true := hcl
      rw [Bool.and_eq_true] at hcl2
      obtain ⟨hhd, htl⟩ := hcl2
      have h1 : (PyList.cons (PyValue.dict kvs2) tl).size
          = (PyValue.dict kvs2).size + tl.size + 1 := rfl
      have hszhd : (PyValue.dict kvs2).size < B := by
        have h2 := pyList_size_pos tl
        omega
      have hsztl : tl.size ≤ B := by
        have h2 := pyValue_size_pos (PyValue.dict kvs2)
        omega
      obtain ⟨n, hn, hv⟩ := hp (PyValue.dict kvs2) hszhd hhd
      obtain ⟨l, hleft, hf⟩ := ih htl hsztl hp
      refine ⟨SchemaList.cons n l, ?_, ?_⟩
      · rw [parseSchemaElemsWith, hn, hleft]
        rfl
      · show List.Forall₂ ValEquiv
          ((PyList.cons (PyValue.dict (pyDictOfList (serializeSchemaNode n)))
            (serializeSchemaListVals l)).toList)
          ((PyList.cons (PyValue.dict kvs2) tl).toList)
        rw [PyList.toList, PyList.toList]
        exact List.Forall₂.cons hv hf
    | none => exact Bool.noConfusion hcl
    | bool b => exact Bool.noConfusion hcl
    | int n => exact Bool.noConfusion hcl
    | float q => exact Bool.noConfusion hcl
    | str s => exact Bool.noConfusion hcl
    | list ys => exact Bool.noConfusion hcl

/-- Canonical round-trip of an `Optional[list["ProcessIOSchema"]]` field. -/
theorem rt_optSchemaListWith (p : PyValue → V SchemaNode) (kvs : PyDict)
    (hc : canonicalEntries kvs = true) (a : String)
    (ha : ∀ v, canonicalField a v
      = (match v with
         | PyValue.none => true
         | PyValue.list xs => canonicalDocList xs
         | _ => false))
    (hp : ∀ w, w.size < kvs.size → canonicalSchemaDoc w = true →
      ∃ n, p w = Except.ok n
        ∧ ValEquiv (PyValue.dict (pyDictOfList (serializeSchemaNode n))) w) :
    ∃ x, parseOptSchemaListWith p a kvs = Except.ok x
      ∧ ∀ v, kvs.lookup a = Option.some v
          → ValEquiv (serializeOptSchemaList x) v := by
  cases hl : kvs.lookup a with
  | none =>
    refine ⟨OptSchemaList.none, ?_, fun v hv => Option.noConfusion hv⟩
    unfold parseOptSchemaListWith
    rw [hl]
  | some v =>
    have hcf := canonicalEntries_lookup kvs hc a v hl
    rw [ha] at hcf
    cases v with
    | none =>
      refine ⟨OptSchemaList.none, ?_, ?_⟩
      · unfold parseOptSchemaListWith
        rw [hl]
      · intro w hw
        rw [← Option.some.inj hw]
        exact ValEquiv.refl _
    | list xs =>
      have hszv := PyDict.lookup_size kvs a _ hl
      have h1 : (PyValue.list xs).size = xs.size + 1 := rfl
      have hszxs : xs.size ≤ kvs.size := by omega
      obtain ⟨l, hel, hf⟩ := rt_schemaElems p kvs.size xs hcf hszxs hp
      refine ⟨OptSchemaList.some l, ?_, ?_⟩
      · unfold parseOptSchemaListWith
        rw [hl]
        show (parseSchemaElemsWith p xs).map OptSchemaList.some
          = Except.ok (OptSchemaList.some l)
        rw [hel]
        rfl
      · intro w hw
        rw [← Option.some.inj hw]
        show ValEquiv (PyValue.list (serializeSchemaListVals l)) (PyValue.list xs)
        exact ValEquiv.list _ _ hf
    | bool b => exact Bool.noConfusion hcf
    | int n => exact Bool.noConfusion hcf
    | float q => exact Bool.noConfusion hcf
    | str s => exact Bool.noConfusion hcf
    | dict d => exact Bool.noConfusion hcf

/-- Canonical round-trip of the `additionalProperties` field. -/
theorem rt_addProps (p : PyValue → V SchemaNode) (kvs : PyDict)
    (hc : canonicalEntries kvs = true)
    (hp : ∀ w, w.size < kvs.size → canonicalSchemaDoc w = true →
      ∃ n, p w = Except.ok n
        ∧ ValEquiv (PyValue.dict (pyDictOfList (serializeSchemaNode n))) w) :
    ∃ x, parseAdditionalPropsWith p kvs = Except.ok x
      ∧ ∀ v, kvs.lookup "additionalProperties" = Option.some v →
          ValEquiv (serializeBoolOrSchema x) v := by
  have ha : ∀ v, canonicalField "additionalProperties" v
      = (match v with
         | PyValue.bool _ => true
         | PyValue.dict kvs2 => canonicalEntries kvs2 && decide kvs2.keys.Nodup
         | _ => false) := fun v => by cases v <;> rfl
  cases hl : kvs.lookup "additionalProperties" with
  | none =>
    exact ⟨BoolOrSchema.bool true, parseAdditionalPropsWith_absent p kvs hl,
      fun v hv => Option.noConfusion hv⟩
  | some v =>
    have hcf := canonicalEntries_lookup kvs hc _ v hl
    rw [ha] at hcf
    cases v with
    | bool b =>
      refine ⟨BoolOrSchema.bool b, ?_, ?_⟩
      · unfold parseAdditionalPropsWith
        rw [hl]
        rfl
      · intro w hw
        rw [← Option.some.inj hw]
        exact ValEquiv.refl _
    | dict kvs2 =>
      have hsz := PyDict.lookup_size kvs _ _ hl
      obtain ⟨n, hn, hv⟩ := hp (PyValue.dict kvs2) hsz hcf
      refine ⟨BoolOrSchema.schema n, ?_, ?_⟩
      · unfold parseAdditionalPropsWith
        rw [hl]
        show (p (PyValue.dict kvs2)).map BoolOrSchema.schema
          = Except.ok (BoolOrSchema.schema n)
        rw [hn]
        rfl
      · intro w hw
        rw [← Option.some.inj hw]
        exact hv
    | none => exact Bool.noConfusion hcf
    | int n => exact Bool.noConfusion hcf
    | float q => exact Bool.noConfusion hcf
    | str s => exact Bool.noConfusion hcf
    | list ys => exact Bool.noConfusion hcf


/-- Assembling `parseSchemaScalars` from successful field parses. -/
theorem parseSchemaScalars_build {kvs : PyDict}
    {x1 : Option String} {x2 x3 : Option ℚ} {x4 : Bool} {x5 : Option ℚ}
    {x6 : Bool} {x7 : Option ℤ} {x8 : ℤ} {x9 : Option String} {x10 : Option ℤ}
    {x11 : ℤ} {x12 : Bool} {x13 : Option ℤ} {x14 : ℤ}
    {x15 : Option (List String)} {x16 : Option (List PyValue)}
    {x17 x18 x19 : Option String} {x20 : Option PyDict} {x21 x22 x23 : Bool}
    {x24 : Option PyDict} {x25 : Bool} {x26 x27 x28 : Option String}
    (h1 : parseOptField strValidator "title" kvs = Except.ok x1)
    (h2 : parseOptField floatValidator "multipleOf" kvs = Except.ok x2)
    (h3 : parseOptField floatValidator "maximum" kvs = Except.ok x3)
    (h4 : parseDefField boolValidator false "exclusiveMaximum" kvs = Except.ok x4)
    (h5 : parseOptField floatValidator "minimum" kvs = Except.ok x5)
    (h6 : parseDefField boolValidator false "exclusiveMinimum" kvs = Except.ok x6)
    (h7 : parseOptField nonNegInt "maxLength" kvs = Except.ok x7)
    (h8 : parseDefField nonNegInt 0 "minLength" kvs = Except.ok x8)
    (h9 : parseOptField strValidator "pattern" kvs = Except.ok x9)
    (h10 : parseOptField nonNegInt "maxItems" kvs = Except.ok x10)
    (h11 : parseDefField nonNegInt 0 "minItems" kvs = Except.ok x11)
    (h12 : parseDefField boolValidator false "uniqueItems" kvs = Except.ok x12)
    (h13 : parseOptField nonNegInt "maxProperties" kvs = Except.ok x13)
    (h14 : parseDefField nonNegInt 0 "minProperties" kvs = Except.ok x14)
    (h15 : parseOptField conlistStrUnique "required" kvs = Except.ok x15)
    (h16 : parseOptField conlistAny "enum" kvs = Except.ok x16)
    (h17 : parseOptField (enumStrValidator processIOTypeValues) "type" kvs = Except.ok x17)
    (h18 : parseOptField strValidator "description" kvs = Except.ok x18)
    (h19 : parseOptField (enumStrValidator processIOFormatValues) "format" kvs = Except.ok x19)
    (h20 : parseOptField jsonDictValidator "default" kvs = Except.ok x20)
    (h21 : parseDefField boolValidator false "nullable" kvs = Except.ok x21)
    (h22 : parseDefField boolValidator false "readOnly" kvs = Except.ok x22)
    (h23 : parseDefField boolValidator false "writeOnly" kvs = Except.ok x23)
    (h24 : parseOptField jsonDictValidator "example" kvs = Except.ok x24)
    (h25 : parseDefField boolValidator false "deprecated" kvs = Except.ok x25)
    (h26 : parseOptField strValidator "contentMediaType" kvs = Except.ok x26)
    (h27 : parseOptField strValidator "contentEncoding" kvs = Except.ok x27)
    (h28 : parseOptField strValidator "contentSchema" kvs = Except.ok x28) :
    parseSchemaScalars kvs = Except.ok
      { title := x1, multiple_of := x2, maximum := x3, exclusive_maximum := x4,
        minimum := x5, exclusive_minimum := x6, max_length := x7,
        min_length := x8, pattern := x9, max_items := x10, min_items := x11,
        unique_items := x12, max_properties := x13, min_properties := x14,
        required := x15, enum := x16, type_ := x17, description := x18,
        format_ := x19, default := x20, nullable := x21, read_only := x22,
        write_only := x23, example_ := x24, deprecated := x25,
        content_media_type := x26, content_encoding := x27,
        content_schema := x28, fieldsSet := schemaFieldsSet kvs } := by
  unfold parseSchemaScalars
  rw [h1, h2, h3, h4, h5, h6, h7, h8, h9, h10, h11, h12, h13, h14, h15, h16,
    h17, h18, h19, h20, h21, h22, h23, h24, h25, h26, h27, h28]
  rfl

/-- Assembling a `ProcessIOSchema` parse from its successful components. -/
theorem parseProcessIOSchemaFuel_build {fuel : Nat} {kvs : PyDict}
    {sc : SchemaScalars} {xnot : OptSchemaNode}
    {xallOf xoneOf xanyOf xitems : OptSchemaList} {xprops : OptSchemaNode}
    {xap : BoolOrSchema}
    (h0 : parseSchemaScalars kvs = Except.ok sc)
    (h1 : parseOptSchemaWith (parseProcessIOSchemaFuel fuel) "not" kvs = Except.ok xnot)
    (h2 : parseOptSchemaListWith (parseProcessIOSchemaFuel fuel) "allOf" kvs = Except.ok xallOf)
    (h3 : parseOptSchemaListWith (parseProcessIOSchemaFuel fuel) "oneOf" kvs = Except.ok xoneOf)
    (h4 : parseOptSchemaListWith (parseProcessIOSchemaFuel fuel) "anyOf" kvs = Except.ok xanyOf)
    (h5 : parseOptSchemaListWith (parseProcessIOSchemaFuel fuel) "items" kvs = Except.ok xitems)
    (h6 : parseOptSchemaWith (parseProcessIOSchemaFuel fuel) "properties" kvs = Except.ok xprops)
    (h7 : parseAdditionalPropsWith (parseProcessIOSchemaFuel fuel) kvs = Except.ok xap) :
    parseProcessIOSchemaFuel (fuel + 1) (PyValue.dict kvs)
      = Except.ok (SchemaNode.mk sc xnot xallOf xoneOf xanyOf xitems xprops xap) := by
  unfold parseProcessIOSchemaFuel
  simp only [asDictLike]
  rw [h0, h1, h2, h3, h4, h5, h6, h7]
  rfl

/-- Unfolding of the serialiser at a constructed node. -/
theorem serializeSchemaNode_mk (sc : SchemaScalars) (xnot : OptSchemaNode)
    (xallOf xoneOf xanyOf xitems : OptSchemaList) (xprops : OptSchemaNode)
    (xap : BoolOrSchema) :
    serializeSchemaNode (SchemaNode.mk sc xnot xallOf xoneOf xanyOf xitems xprops xap)
      = emitFields
          (schemaG sc (serializeOptSchema xnot) (serializeOptSchemaList xallOf)
            (serializeOptSchemaList xoneOf) (serializeOptSchemaList xanyOf)
            (serializeOptSchemaList xitems) (serializeOptSchema xprops)
            (serializeBoolOrSchema xap))
          sc.fieldsSet processIOSchemaAliases := by
  rw [serializeSchemaNode]

/-- Serialising the set fields of a canonical-entry dict under any renderer
that is `ValEquiv` to each present raw value reproduces the dict up to key
order. -/
theorem roundtrip_emit (kvs : PyDict) (hc : canonicalEntries kvs = true)
    (G : String → PyValue)
    (hG : ∀ k v, kvs.lookup k = Option.some v → ValEquiv (G k) v) :
    ValEquiv
      (PyValue.dict (pyDictOfList
        (emitFields G (schemaFieldsSet kvs) processIOSchemaAliases)))
      (PyValue.dict kvs) := by
  have hndOut := emitFields_keys_nodup G (schemaFieldsSet kvs)
    processIOSchemaAliases (by decide)
  apply ValEquiv.dict
  · intro k
    rw [pyDictOfList_lookup _ hndOut k, lookupL_emitFields]
    constructor
    · intro hser
      cases hkv : kvs.lookup k with
      | none => rfl
      | some v =>
        have hkal : k ∈ processIOSchemaAliases :=
          canonicalField_mem (canonicalEntries_lookup kvs hc k v hkv)
        have hkfs : k ∈ schemaFieldsSet kvs :=
          mem_schemaFieldsSet.mpr ⟨hkal, by rw [hkv]; rfl⟩
        rw [if_pos ⟨hkal, hkfs⟩] at hser
        exact Option.noConfusion hser
    · intro hkv
      have hno : ¬(k ∈ processIOSchemaAliases ∧ k ∈ schemaFieldsSet kvs) := by
        rintro ⟨-, hkfs⟩
        have hs := (mem_schemaFieldsSet.mp hkfs).2
        rw [hkv] at hs
        exact Bool.noConfusion hs
      rw [if_neg hno]
  · intro k va vb hva hvb
    rw [pyDictOfList_lookup _ hndOut k, lookupL_emitFields] at hva
    have hkal : k ∈ processIOSchemaAliases :=
      canonicalField_mem (canonicalEntries_lookup kvs hc k vb hvb)
    have hkfs : k ∈ schemaFieldsSet kvs :=
      mem_schemaFieldsSet.mpr ⟨hkal, by rw [hvb]; rfl⟩
    rw [if_pos ⟨hkal, hkfs⟩] at hva
    rw [← Option.some.inj hva]
    exact hG k vb hvb


/-- Canonical round-trip at any sufficient fuel: a canonical schema
document parses, and serialising the result reproduces the document up to
the order of keys at each level. -/
theorem canonical_roundtrip_fuel :
    ∀ (fuel : Nat) (w : PyValue), canonicalSchemaDoc w = true →
      w.size ≤ fuel →
      ∃ n, parseProcessIOSchemaFuel fuel w = Except.ok n
        ∧ ValEquiv (PyValue.dict (pyDictOfList (serializeSchemaNode n))) w := by
  intro fuel
  induction fuel with
  | zero =>
    intro w _ hsz
    have := pyValue_size_pos w
    omega
  | succ fuel ih =>
    intro w hcan hsz
    cases w with
    | dict kvs =>
      rw [canonicalSchemaDoc, Bool.and_eq_true, decide_eq_true_eq] at hcan
      have hsz1 : (PyValue.dict kvs).size = kvs.size + 1 := rfl
      have hszk : kvs.size ≤ fuel := by omega
      have hp : ∀ w2, w2.size < kvs.size → canonicalSchemaDoc w2 = true →
          ∃ n, parseProcessIOSchemaFuel fuel w2 = Except.ok n
            ∧ ValEquiv (PyValue.dict (pyDictOfList (serializeSchemaNode n))) w2 :=
        fun w2 hw2 hcw2 => ih w2 hcw2 (by omega)
      obtain ⟨x1, p1, r1⟩ := rt_optStr kvs hcan.1 "title" (fun v => by cases v <;> rfl)
      obtain ⟨x2, p2, r2⟩ := rt_optFloat kvs hcan.1 "multipleOf" (fun v => by cases v <;> rfl)
      obtain ⟨x3, p3, r3⟩ := rt_optFloat kvs hcan.1 "maximum" (fun v => by cases v <;> rfl)
      obtain ⟨x4, p4, r4⟩ := rt_bool kvs hcan.1 "exclusiveMaximum" (fun v => by cases v <;> rfl)
      obtain ⟨x5, p5, r5⟩ := rt_optFloat kvs hcan.1 "minimum" (fun v => by cases v <;> rfl)
      obtain ⟨x6, p6, r6⟩ := rt_bool kvs hcan.1 "exclusiveMinimum" (fun v => by cases v <;> rfl)
      obtain ⟨x7, p7, r7⟩ := rt_optNat kvs hcan.1 "maxLength" (fun v => by cases v <;> rfl)
      obtain ⟨x8, p8, r8⟩ := rt_nat kvs hcan.1 "minLength" (fun v => by cases v <;> rfl)
      obtain ⟨x9, p9, r9⟩ := rt_optStr kvs hcan.1 "pattern" (fun v => by cases v <;> rfl)
      obtain ⟨x10, p10, r10⟩ := rt_optNat kvs hcan.1 "maxItems" (fun v => by cases v <;> rfl)
      obtain ⟨x11, p11, r11⟩ := rt_nat kvs hcan.1 "minItems" (fun v => by cases v <;> rfl)
      obtain ⟨x12, p12, r12⟩ := rt_bool kvs hcan.1 "uniqueItems" (fun v => by cases v <;> rfl)
      obtain ⟨x13, p13, r13⟩ := rt_optNat kvs hcan.1 "maxProperties" (fun v => by cases v <;> rfl)
      obtain ⟨x14, p14, r14⟩ := rt_nat kvs hcan.1 "minProperties" (fun v => by cases v <;> rfl)
      obtain ⟨x15, p15, r15⟩ := rt_required kvs hcan.1
      obtain ⟨x16, p16, r16⟩ := rt_enum kvs hcan.1
      obtain ⟨x17, p17, r17⟩ := rt_enumStr processIOTypeValues kvs hcan.1 "type"
        (fun v => by cases v <;> rfl)
      obtain ⟨x18, p18, r18⟩ := rt_optStr kvs hcan.1 "description" (fun v => by cases v <;> rfl)
      obtain ⟨x19, p19, r19⟩ := rt_enumStr processIOFormatValues kvs hcan.1 "format"
        (fun v => by cases v <;> rfl)
      have habsDefault : kvs.lookup "default" = Option.none :=
        canonical_absent hcan.1 "default" (fun v => by cases v <;> rfl)
      have p20 : parseOptField jsonDictValidator "default" kvs
          = Except.ok Option.none := parseOptField_absent _ _ _ habsDefault
      obtain ⟨x21, p21, r21⟩ := rt_bool kvs hcan.1 "nullable" (fun v => by cases v <;> rfl)
      obtain ⟨x22, p22, r22⟩ := rt_bool kvs hcan.1 "readOnly" (fun v => by cases v <;> rfl)
      obtain ⟨x23, p23, r23⟩ := rt_bool kvs hcan.1 "writeOnly" (fun v => by cases v <;> rfl)
      have habsExample : kvs.lookup "example" = Option.none :=
        canonical_absent hcan.1 "example" (fun v => by cases v <;> rfl)
      have p24 : parseOptField jsonDictValidator "example" kvs
          = Except.ok Option.none := parseOptField_absent _ _ _ habsExample
      obtain ⟨x25, p25, r25⟩ := rt_bool kvs hcan.1 "deprecated" (fun v => by cases v <;> rfl)
      obtain ⟨x26, p26, r26⟩ := rt_optStr kvs hcan.1 "contentMediaType" (fun v => by cases v <;> rfl)
      obtain ⟨x27, p27, r27⟩ := rt_optStr kvs hcan.1 "contentEncoding" (fun v => by cases v <;> rfl)
      obtain ⟨x28, p28, r28⟩ := rt_optStr kvs hcan.1 "contentSchema" (fun v => by cases v <;> rfl)
      obtain ⟨xnot, pnot, rnot⟩ := rt_optSchemaWith (parseProcessIOSchemaFuel fuel)
        kvs hcan.1 "not" (fun v => by cases v <;> rfl) hp
      obtain ⟨xallOf, pallOf, rallOf⟩ := rt_optSchemaListWith (parseProcessIOSchemaFuel fuel)
        kvs hcan.1 "allOf" (fun v => by cases v <;> rfl) hp
      obtain ⟨xoneOf, poneOf, roneOf⟩ := rt_optSchemaListWith (parseProcessIOSchemaFuel fuel)
        kvs hcan.1 "oneOf" (fun v => by cases v <;> rfl) hp
      obtain ⟨xanyOf, panyOf, ranyOf⟩ := rt_optSchemaListWith (parseProcessIOSchemaFuel fuel)
        kvs hcan.1 "anyOf" (fun v => by cases v <;> rfl) hp
      obtain ⟨xitems, pitems, ritems⟩ := rt_optSchemaListWith (parseProcessIOSchemaFuel fuel)
        kvs hcan.1 "items" (fun v => by cases v <;> rfl) hp
      obtain ⟨xprops, pprops, rprops⟩ := rt_optSchemaWith (parseProcessIOSchemaFuel fuel)
        kvs hcan.1 "properties" (fun v => by cases v <;> rfl) hp
      obtain ⟨xap, pap, rap⟩ := rt_addProps (parseProcessIOSchemaFuel fuel) kvs hcan.1 hp
      have hscal := parseSchemaScalars_build p1 p2 p3 p4 p5 p6 p7 p8 p9 p10
        p11 p12 p13 p14 p15 p16 p17 p18 p19 p20 p21 p22 p23 p24 p25 p26 p27 p28
      have hnode := parseProcessIOSchemaFuel_build hscal pnot pallOf poneOf
        panyOf pitems pprops pap
      refine ⟨_, hnode, ?_⟩
      rw [serializeSchemaNode_mk]
      apply roundtrip_emit kvs hcan.1
      intro k v hv
      have hkal : k ∈ processIOSchemaAliases :=
        canonicalField_mem (canonicalEntries_lookup kvs hcan.1 k v hv)
      simp only [processIOSchemaAliases, List.mem_cons, List.not_mem_nil,
        or_false] at hkal
      rcases hkal with rfl | rfl | rfl | rfl | rfl | rfl | rfl | rfl | rfl |
        rfl | rfl | rfl | rfl | rfl | rfl | rfl | rfl | rfl | rfl | rfl |
        rfl | rfl | rfl | rfl | rfl | rfl | rfl | rfl | rfl | rfl | rfl |
        rfl | rfl | rfl | rfl
      · exact r1 v hv
      · exact r2 v hv
      · exact r3 v hv
      · exact r4 v hv
      · exact r5 v hv
      · exact r6 v hv
      · exact r7 v hv
      · exact r8 v hv
      · exact r9 v hv
      · exact r10 v hv
      · exact r11 v hv
      · exact r12 v hv
      · exact r13 v hv
      · exact r14 v hv
      · exact r15 v hv
      · exact r16 v hv
      · exact r17 v hv
      · exact rnot v hv
      · exact rallOf v hv
      · exact roneOf v hv
      · exact ranyOf v hv
      · exact ritems v hv
      · exact rprops v hv
      · exact rap v hv
      · exact r18 v hv
      · exact r19 v hv
      · rw [habsDefault] at hv
        exact Option.noConfusion hv
      · exact r21 v hv
      · exact r22 v hv
      · exact r23 v hv
      · rw [habsExample] at hv
        exact Option.noConfusion hv
      · exact r25 v hv
      · exact r26 v hv
      · exact r27 v hv
      · exact r28 v hv
    | none => exact Bool.noConfusion hcan
    | bool b => exact Bool.noConfusion hcan
    | int n => exact Bool.noConfusion hcan
    | float q => exact Bool.noConfusion hcan
    | str s => exact Bool.noConfusion hcan
    | list ys => exact Bool.noConfusion hcan


/-- C4 counterexample: the raw schema document `{"nullable": 1}` is
accepted by `ProcessIOSchema` (pydantic v1's `bool_validator` coerces the
int `1` to `True`), but serialising the parsed node emits
`{"nullable": true}` — the key reappears with a *different* value, so
`serialize(parse(D))` is not structurally equal to `D` for every valid
document `D`. -/
theorem nullable_coercion_breaks_roundtrip :
    (parseProcessIOSchema (PyValue.dict (PyDict.cons "nullable" (PyValue.int 1)
        PyDict.nil))).map serializeSchemaNode
      = Except.ok [("nullable", PyValue.bool true)]
    ∧ PyValue.bool true ≠ PyValue.int 1 :=
  ⟨rfl, fun h => PyValue.noConfusion h⟩

/-- C4 (corrected): for every *canonical* raw schema document — one whose
values already have their field's exact target type, with nested
subschemas recursively canonical and without the intrinsically
non-value-preserving `Json[dict]` fields `default`/`example` or unknown
keys — parsing succeeds and serialising the parsed `SchemaNode`
(`.dict(by_alias=True, exclude_unset=True)`) reproduces the document up to
the order of keys at each level: every key of `D` reappears with an
equivalent value and no absent key surfaces as a spurious default.  For
general valid documents the round-trip fails, because the coercing
validators rewrite values (see the counterexample `{"nullable": 1}`). -/
theorem canonical_schema_roundtrip {kvs : PyDict}
    (h : canonicalSchemaDoc (PyValue.dict kvs) = true) :
    ∃ n, parseProcessIOSchema (PyValue.dict kvs) = Except.ok n
      ∧ ValEquiv (PyValue.dict (pyDictOfList (serializeSchemaNode n)))
          (PyValue.dict kvs) :=
  canonical_roundtrip_fuel (PyValue.dict kvs).size (PyValue.dict kvs) h
    (Nat.le_refl _)

/-- Witness for C4: the canonical document
`{"title": "t", "minLength": 2, "not": {"type": "string"}}` round-trips. -/
theorem canonical_schema_roundtrip_witness :
    canonicalSchemaDoc (PyValue.dict (PyDict.cons "title" (PyValue.str "t")
        (PyDict.cons "minLength" (PyValue.int 2)
          (PyDict.cons "not" (PyValue.dict (PyDict.cons "type"
            (PyValue.str "string") PyDict.nil)) PyDict.nil)))) = true
    ∧ ∃ n, parseProcessIOSchema (PyValue.dict (PyDict.cons "title" (PyValue.str "t")
          (PyDict.cons "minLength" (PyValue.int 2)
            (PyDict.cons "not" (PyValue.dict (PyDict.cons "type"
              (PyValue.str "string") PyDict.nil)) PyDict.nil)))) = Except.ok n
        ∧ ValEquiv (PyValue.dict (pyDictOfList (serializeSchemaNode n)))
            (PyValue.dict (PyDict.cons "title" (PyValue.str "t")
              (PyDict.cons "minLength" (PyValue.int 2)
                (PyDict.cons "not" (PyValue.dict (PyDict.cons "type"
                  (PyValue.str "string") PyDict.nil)) PyDict.nil)))) :=
  ⟨rfl, canonical_schema_roundtrip rfl⟩

end PygeoapiPrefect
